import Mathlib

/-!
Shallow embedding of the TradeSignal signal-detection and backtesting engine.

Prices and capital are embedded as exact rationals (`ℚ`) wherever the source
performs only field arithmetic and comparisons; the geometric exit projection
(`exitPriceCalculator.js`), which takes a square root, is embedded over `ℝ`.
Bar timestamps (`date.getTime()`) are embedded as naturals.  JavaScript `null`
and `undefined` become `Option.none`; JavaScript truthiness of a numeric value
(`!x` succeeding on `null`, `undefined` and `0`) is modelled by `optTruthy`.
-/

namespace TradeSignal

/-- One OHLCV bar; `date` is the millisecond timestamp `date.getTime()`. -/
structure Bar where
  date : ℕ
  open_ : ℚ
  high : ℚ
  low : ℚ
  close : ℚ
  volume : ℚ
  deriving Repr, DecidableEq, Inhabited

/-- A high pivot `{ date, high }` as built by `pivotFinders.js`. -/
structure PivotHigh where
  date : ℕ
  high : ℚ
  deriving Repr, DecidableEq, Inhabited

/-- A low pivot `{ date, low }` as built by `pivotFinders.js`. -/
structure PivotLow where
  date : ℕ
  low : ℚ
  deriving Repr, DecidableEq, Inhabited

/-- Result of `findExitProjectionPivot`: `{ date, low }` for a LONG scan,
`{ date, high }` for a SHORT scan. -/
inductive ExitPivot where
  | lowPivot (date : ℕ) (low : ℚ)
  | highPivot (date : ℕ) (high : ℚ)
  deriving Repr, DecidableEq

/-- The date field of either kind of exit pivot. -/
def ExitPivot.date : ExitPivot → ℕ
  | .lowPivot d _ => d
  | .highPivot d _ => d

/-- The `signalType` strings `"LONG"` / `"SHORT"`. -/
inductive SignalType where
  | LONG
  | SHORT
  deriving Repr, DecidableEq

/-- JavaScript truthiness of an optional number: `undefined`, `null` and `0`
are falsy, every other number is truthy. -/
def optTruthy (x : Option ℚ) : Bool :=
  match x with
  | none => false
  | some q => q ≠ 0

/-! ## `utils/algoCore/exitPriceCalculator.js` -/

/-- The `pivot` argument of `calculateProjectedExit`: an object carrying
`low` and `high` price fields. -/
structure ProjPivot where
  low : ℝ
  high : ℝ

/-- `calculateProjectedExit` from `exitPriceCalculator.js`.  Guard: the source
returns `null` when `!signalType || !triggerPrice || !pivot ||
timeDifference === undefined || scalingFactor <= 0`; for a number,
`!triggerPrice` also succeeds when `triggerPrice` is `0`. -/
noncomputable def calculateProjectedExit (signalType : Option SignalType)
    (triggerPrice : Option ℝ) (pivot : Option ProjPivot)
    (timeDifference : Option ℝ) (scalingFactor : ℝ) : Option ℝ :=
  match signalType, triggerPrice, pivot, timeDifference with
  | some st, some tp, some pv, some td =>
    if tp = 0 ∨ scalingFactor ≤ 0 then none
    else
      let pivotPrice : ℝ := match st with
        | .LONG => pv.low
        | .SHORT => pv.high
      let deltaP_dollars : ℝ := |tp - pivotPrice|
      let deltaP_scaled : ℝ := deltaP_dollars / scalingFactor
      let radius_scaled : ℝ := Real.sqrt (td ^ 2 + deltaP_scaled ^ 2)
      let radius_dollars : ℝ := radius_scaled * scalingFactor
      match st with
      | .LONG => some (tp + radius_dollars)
      | .SHORT => some (tp - radius_dollars)
  | _, _, _, _ => none

/-- Helper: the LONG branch of `calculateProjectedExit` on valid inputs. -/
theorem calculateProjectedExit_long_eq (tp : ℝ) (pv : ProjPivot) (td sf : ℝ)
    (htp : tp ≠ 0) (hsf : 0 < sf) :
    calculateProjectedExit (some .LONG) (some tp) (some pv) (some td) sf =
      some (tp + Real.sqrt (td ^ 2 + (|tp - pv.low| / sf) ^ 2) * sf) := by
  simp only [calculateProjectedExit]
  rw [if_neg (by push_neg; exact ⟨htp, hsf⟩)]

/-- Helper: the SHORT branch of `calculateProjectedExit` on valid inputs. -/
theorem calculateProjectedExit_short_eq (tp : ℝ) (pv : ProjPivot) (td sf : ℝ)
    (htp : tp ≠ 0) (hsf : 0 < sf) :
    calculateProjectedExit (some .SHORT) (some tp) (some pv) (some td) sf =
      some (tp - Real.sqrt (td ^ 2 + (|tp - pv.high| / sf) ^ 2) * sf) := by
  simp only [calculateProjectedExit]
  rw [if_neg (by push_neg; exact ⟨htp, hsf⟩)]

/-! ## `utils/algoCore/pivotFinders.js` -/

/-- The 5-bar fractal-high scan of `findInitialPivots`: the source walks
`i` from `bars.length - 3` down to `2` and keeps the first bar whose high
strictly exceeds the highs of its two neighbours on each side.  The argument
is the current source index `i`; indices below `2` end the scan. -/
def scan5High (bars : List Bar) : ℕ → Option PivotHigh
  | i + 2 =>
    let middle := bars.getD (i + 2) default
    if middle.high > (bars.getD (i + 1) default).high ∧
        middle.high > (bars.getD i default).high ∧
        middle.high > (bars.getD (i + 3) default).high ∧
        middle.high > (bars.getD (i + 4) default).high then
      some { date := middle.date, high := middle.high }
    else scan5High bars (i + 1)
  | _ => none

/-- The 5-bar fractal-low scan of `findInitialPivots`. -/
def scan5Low (bars : List Bar) : ℕ → Option PivotLow
  | i + 2 =>
    let middle := bars.getD (i + 2) default
    if middle.low < (bars.getD (i + 1) default).low ∧
        middle.low < (bars.getD i default).low ∧
        middle.low < (bars.getD (i + 3) default).low ∧
        middle.low < (bars.getD (i + 4) default).low then
      some { date := middle.date, low := middle.low }
    else scan5Low bars (i + 1)
  | _ => none

/-- The 3-bar fractal-high fallback scan of `findInitialPivots`: `i` walks
from `bars.length - 2` down to `1`. -/
def scan3High (bars : List Bar) : ℕ → Option PivotHigh
  | i + 1 =>
    let middle := bars.getD (i + 1) default
    if middle.high > (bars.getD i default).high ∧
        middle.high > (bars.getD (i + 2) default).high then
      some { date := middle.date, high := middle.high }
    else scan3High bars i
  | 0 => none

/-- The 3-bar fractal-low fallback scan of `findInitialPivots`. -/
def scan3Low (bars : List Bar) : ℕ → Option PivotLow
  | i + 1 =>
    let middle := bars.getD (i + 1) default
    if middle.low < (bars.getD i default).low ∧
        middle.low < (bars.getD (i + 2) default).low then
      some { date := middle.date, low := middle.low }
    else scan3Low bars i
  | 0 => none

/-- The running `(maxHighInWindow, correctedHighBar)` loop of the
correction pass (lines 77–82). -/
def hiFold (correctionWindow : List Bar) (acc : ℚ × Bar) : ℚ × Bar :=
  correctionWindow.foldl
    (fun acc bar => if bar.high > acc.1 then (bar.high, bar) else acc) acc

/-- The running `(minLowInWindow, correctedLowBar)` loop of the
correction pass (lines 98–103). -/
def loFold (correctionWindow : List Bar) (acc : ℚ × Bar) : ℚ × Bar :=
  correctionWindow.foldl
    (fun acc bar => if bar.low < acc.1 then (bar.low, bar) else acc) acc

/-- The correction pass of `findInitialPivots` for the high pivot: find the
bar carrying the initial pivot's date, scan from it to the end of the window
and keep the greatest high together with the first bar attaining it. -/
def correctHigh (bars : List Bar) (ph : PivotHigh) : PivotHigh :=
  match bars.findIdx? (fun d => d.date == ph.date) with
  | none => ph
  | some startIndex =>
    let r := hiFold (bars.drop startIndex) (ph.high, bars.getD startIndex default)
    { date := r.2.date, high := r.1 }

/-- The correction pass of `findInitialPivots` for the low pivot. -/
def correctLow (bars : List Bar) (pl : PivotLow) : PivotLow :=
  match bars.findIdx? (fun d => d.date == pl.date) with
  | none => pl
  | some startIndex =>
    let r := loFold (bars.drop startIndex) (pl.low, bars.getD startIndex default)
    { date := r.2.date, low := r.1 }

/-- The `initialPivotHigh` local of `findInitialPivots`: the 5-bar fractal
scan, falling back to the 3-bar scan. -/
def initialPivotHighOf (bars : List Bar) : Option PivotHigh :=
  let pivotHigh5Bar := if 5 ≤ bars.length then scan5High bars (bars.length - 3) else none
  let pivotHigh3Bar := if pivotHigh5Bar.isNone then scan3High bars (bars.length - 2) else none
  pivotHigh5Bar.orElse (fun _ => pivotHigh3Bar)

/-- The `initialPivotLow` local of `findInitialPivots`. -/
def initialPivotLowOf (bars : List Bar) : Option PivotLow :=
  let pivotLow5Bar := if 5 ≤ bars.length then scan5Low bars (bars.length - 3) else none
  let pivotLow3Bar := if pivotLow5Bar.isNone then scan3Low bars (bars.length - 2) else none
  pivotLow5Bar.orElse (fun _ => pivotLow3Bar)

/-- `findInitialPivots` from `pivotFinders.js` (the second JavaScript call-site
argument is unused by the source and therefore not modelled). -/
def findInitialPivots (bars : List Bar) : Option PivotHigh × Option PivotLow :=
  if bars.length < 3 then (none, none)
  else ((initialPivotHighOf bars).map (correctHigh bars),
        (initialPivotLowOf bars).map (correctLow bars))

/-- The backward scan of `findExitProjectionPivot` for a LONG signal:
`i` walks from `bars.length - 2` down to `1` looking for a 3-bar low. -/
def exitScanLong (bars : List Bar) : ℕ → Option ExitPivot
  | i + 1 =>
    let middle := bars.getD (i + 1) default
    if middle.low < (bars.getD i default).low ∧
        middle.low < (bars.getD (i + 2) default).low then
      some (.lowPivot middle.date middle.low)
    else exitScanLong bars i
  | 0 => none

/-- The backward scan of `findExitProjectionPivot` for a SHORT signal. -/
def exitScanShort (bars : List Bar) : ℕ → Option ExitPivot
  | i + 1 =>
    let middle := bars.getD (i + 1) default
    if middle.high > (bars.getD i default).high ∧
        middle.high > (bars.getD (i + 2) default).high then
      some (.highPivot middle.date middle.high)
    else exitScanShort bars i
  | 0 => none

/-- `findExitProjectionPivot` from `pivotFinders.js`. -/
def findExitProjectionPivot (historicalBars : List Bar) (signalType : SignalType) :
    Option ExitPivot :=
  if historicalBars.length < 3 then none
  else
    match signalType with
    | .LONG => exitScanLong historicalBars (historicalBars.length - 2)
    | .SHORT => exitScanShort historicalBars (historicalBars.length - 2)

/-- A pivot `{ index, price }` collected by `calculateTrendStructureRatio`
(the `type` tag is never read afterwards and is not modelled). -/
structure TrendPivot where
  index : ℕ
  price : ℚ
  deriving Repr, DecidableEq

/-- The pivot-collection loop of `calculateTrendStructureRatio`: `i` starts at
`pivotLookaround` and runs while `i < bars.length - pivotLookaround`; on a
pivot hit the source additionally advances `i` by `pivotLookaround`.  The
first argument is the remaining fuel (`bars.length` suffices). -/
def trendPivotLoop (bars : List Bar) (la : ℕ) : ℕ → ℕ → List TrendPivot
  | 0, _ => []
  | fuel + 1, i =>
    if i < bars.length - la then
      let window := (bars.take (i + la + 1)).drop (i - la)
      let currentBar := bars.getD i default
      let maxHigh := ((window.map Bar.high).max?).getD 0
      let minLow := ((window.map Bar.low).min?).getD 0
      if currentBar.high = maxHigh then
        ⟨i, currentBar.high⟩ :: trendPivotLoop bars la fuel (i + la + 1)
      else if currentBar.low = minLow then
        ⟨i, currentBar.low⟩ :: trendPivotLoop bars la fuel (i + la + 1)
      else trendPivotLoop bars la fuel (i + 1)
    else []

/-- The slope list of `calculateTrendStructureRatio`: absolute price delta per
bar between each pair of consecutive recent pivots, kept when `deltaT > 0`. -/
def slopesOf (recentPivots : List TrendPivot) : List ℚ :=
  (recentPivots.zip recentPivots.tail).filterMap (fun p =>
    let deltaP : ℚ := |p.2.price - p.1.price|
    let deltaT : ℤ := (p.2.index : ℤ) - (p.1.index : ℤ)
    if deltaT > 0 then some (deltaP / (deltaT : ℚ)) else none)

/-- `calculateTrendStructureRatio` from `pivotFinders.js`. -/
def calculateTrendStructureRatio (bars : List Bar) (numPivots : ℕ := 4)
    (pivotLookaround : ℕ := 10) : Option ℚ :=
  if bars.length < pivotLookaround * 2 + 1 then none
  else
    let pivots := trendPivotLoop bars pivotLookaround bars.length pivotLookaround
    if pivots.length < 2 then none
    else
      let recentPivots := pivots.drop (pivots.length - numPivots)
      let slopes := slopesOf recentPivots
      if slopes.length = 0 then none
      else some (slopes.sum / (slopes.length : ℚ))

/-! ## `utils/algoCore/technicalIndicators.js` -/

/-- `calculateATR` from `technicalIndicators.js`: simple average of the last
`period` true ranges, `null` without `period + 1` bars. -/
def calculateATR (bars : List Bar) (period : ℕ) : Option ℚ :=
  if bars.length < period + 1 then none
  else
    let trueRanges := (bars.zip bars.tail).map (fun p =>
      max (p.2.high - p.2.low) (max |p.2.high - p.1.close| |p.2.low - p.1.close|))
    let relevantTRs := trueRanges.drop (trueRanges.length - period)
    if relevantTRs.length < period then none
    else some (relevantTRs.sum / (period : ℚ))

/-! ## `utils/algoCore/tradeSignalLogic.js` -/

/-- A signal object built by `findFutureSignals` and later enriched by the
assembler with `projectedExit` and `exitPivot` (the human-readable numeric
rendering inside `reason` is not modelled). -/
structure AsmSignal where
  triggerDate : ℕ
  entryDate : ℕ
  entryPrice : ℚ
  reason : String
  projectedExit : Option ℝ := none
  exitPivot : Option ExitPivot := none

/-- The scanning loop of `findFutureSignals`; `rem` is the number of
remaining loop iterations (`bars.length - 1 - i`), so `rem = 0` is exactly
the source's exit condition `i < bars.length - 1` failing. -/
def findFutureSignalsLoop (bars : List Bar) (fractalHigh : Option PivotHigh)
    (fractalLow : Option PivotLow) :
    ℕ → ℕ → Option AsmSignal → Option AsmSignal → Option AsmSignal × Option AsmSignal
  | _, 0, longSignal, shortSignal => (longSignal, shortSignal)
  | i, rem + 1, longSignal, shortSignal =>
    let triggerBar := bars.getD i default
    let entryBar := bars.getD (i + 1) default
    let longSignal' :=
      if longSignal.isNone ∧ (match fractalHigh with
          | some fh => decide (triggerBar.date > fh.date ∧ triggerBar.close > fh.high)
          | none => false) = true then
        some { triggerDate := triggerBar.date, entryDate := entryBar.date,
               entryPrice := entryBar.open_, reason := "Closed above fractal high" }
      else longSignal
    let shortSignal' :=
      if shortSignal.isNone ∧ (match fractalLow with
          | some fl => decide (triggerBar.date > fl.date ∧ triggerBar.close < fl.low)
          | none => false) = true then
        some { triggerDate := triggerBar.date, entryDate := entryBar.date,
               entryPrice := entryBar.open_, reason := "Closed below fractal low" }
      else shortSignal
    if longSignal'.isSome ∧ shortSignal'.isSome then (longSignal', shortSignal')
    else findFutureSignalsLoop bars fractalHigh fractalLow (i + 1) rem longSignal' shortSignal'

/-- `findFutureSignals` from `tradeSignalLogic.js`. -/
def findFutureSignals (bars : List Bar) (fractalHigh : Option PivotHigh)
    (fractalLow : Option PivotLow) : Option AsmSignal × Option AsmSignal :=
  if bars.length < 2 then (none, none)
  else findFutureSignalsLoop bars fractalHigh fractalLow 0 (bars.length - 1) none none

/-! ## `utils/algoCore/backtester.js` -/

/-- A signal object as consumed by `runBacktest` (`signalData.longSignal` /
`signalData.shortSignal`).  `entryDate` may be absent, prices are opaque
numbers here. -/
structure Signal where
  entryDate : Option ℕ := none
  entryPrice : ℚ := 0
  projectedExit : Option ℚ := none
  exitPivot : Option ExitPivot := none
  deriving Repr, DecidableEq, Inhabited

/-- One element of the `signals` list handed to `runBacktest` (called
`signalData` in the source). -/
structure SignalRecord where
  longSignal : Option Signal := none
  shortSignal : Option Signal := none
  pivotHigh : Option PivotHigh := none
  pivotLow : Option PivotLow := none
  startPointName : String := ""
  startDateUTC : String := ""
  lookbackEndDate : ℕ := 0
  lookbackPeriod : ℕ := 0
  deriving Repr, DecidableEq, Inhabited

/-- The object `{ ...signalData, tradeSignal, isLong }` built inside
`groupSignalsByEntryBar`. -/
structure PotentialTrade where
  base : SignalRecord
  tradeSignal : Signal
  isLong : Bool
  deriving Repr, DecidableEq, Inhabited

/-- The mapping step of `groupSignalsByEntryBar`: a record with a
`longSignal` becomes a long potential trade (its `shortSignal` is never
looked at), otherwise a `shortSignal` becomes a short one, otherwise the
record maps to `null`. -/
def chooseTrade (signalData : SignalRecord) : Option PotentialTrade :=
  match signalData.longSignal with
  | some ls => some ⟨signalData, ls, true⟩
  | none =>
    match signalData.shortSignal with
    | some ss => some ⟨signalData, ss, false⟩
    | none => none

/-- `allPotentialTrades` from `groupSignalsByEntryBar`: map, drop `null`s and
trades without an `entryDate`, then sort by entry date.  JavaScript
`Array.sort` is a stable comparison sort; it is embedded as the stable
`List.insertionSort`. -/
def allPotentialTrades (signals : List SignalRecord) : List PotentialTrade :=
  ((signals.filterMap chooseTrade).filter
      (fun trade => trade.tradeSignal.entryDate.isSome)).insertionSort
    (fun a b => a.tradeSignal.entryDate.getD 0 ≤ b.tradeSignal.entryDate.getD 0)

/-- Keyed insertion into the `signalsByTimestamp` object. -/
def insertTrade (acc : List (ℕ × List PotentialTrade)) (k : ℕ) (trade : PotentialTrade) :
    List (ℕ × List PotentialTrade) :=
  match acc with
  | [] => [(k, [trade])]
  | (k', l) :: rest =>
    if k' = k then (k', l ++ [trade]) :: rest else (k', l) :: insertTrade rest k trade

/-- `groupSignalsByEntryBar` from `backtester.js`. -/
def groupSignalsByEntryBar (signals : List SignalRecord) :
    List (ℕ × List PotentialTrade) :=
  (allPotentialTrades signals).foldl
    (fun acc trade => insertTrade acc (trade.tradeSignal.entryDate.getD 0) trade) []

/-- The stop-loss lookup `isLong ? pivotLow?.low : pivotHigh?.high` shared by
`getGhostTradeOutcome` (line 9) and the entry loop (line 226). -/
def stopLossOf (signalData : PotentialTrade) : Option ℚ :=
  if signalData.isLong then signalData.base.pivotLow.map PivotLow.low
  else signalData.base.pivotHigh.map PivotHigh.high

/-- `getGhostTradeOutcome` from `backtester.js`: replay the candidate from
its entry bar through the rest of the series against its stop/target and
classify the hypothetical trade, touching no state. -/
def getGhostTradeOutcome (signalData : PotentialTrade) (historicalData : List Bar) :
    Option String :=
  let stopLoss := stopLossOf signalData
  let projectedExit := signalData.tradeSignal.projectedExit
  if !(optTruthy stopLoss) || !(optTruthy projectedExit) then none
  else
    let sl := stopLoss.getD 0
    let pe := projectedExit.getD 0
    match historicalData.findIdx? (fun d => some d.date == signalData.tradeSignal.entryDate) with
    | none => none
    | some startIndex =>
      let tradeWindow := historicalData.drop startIndex
      let tradeResult := tradeWindow.findSome? (fun bar =>
        if signalData.isLong then
          if bar.low ≤ sl then some sl
          else if bar.high ≥ pe then some pe
          else none
        else
          if bar.high ≥ sl then some sl
          else if bar.low ≤ pe then some pe
          else none)
      match tradeResult with
      | none => none
      | some exitPrice =>
        let profit := if signalData.isLong then exitPrice - signalData.tradeSignal.entryPrice
          else signalData.tradeSignal.entryPrice - exitPrice
        some (if profit > 0 then "win" else "loss")

/-- The `originalSignal` object stored on a position and spread into its
trade record. -/
structure OriginalSignal where
  type : String
  entryDate : Option ℕ
  entryPrice : ℚ
  ingressDate : String
  lookbackEndDate : ℕ
  lookbackPeriod : ℕ
  entryPivotHigh : Option PivotHigh
  entryPivotLow : Option PivotLow
  exitPivot : Option ExitPivot
  projectedExit : ℚ
  deriving Repr, DecidableEq, Inhabited

/-- An open position of `runBacktest`. -/
structure Position where
  entryDate : Option ℕ
  entryPrice : ℚ
  isLong : Bool
  stopLoss : ℚ
  takeProfit : ℚ
  capitalAllocated : ℚ
  startPointName : String
  originalSignal : OriginalSignal
  deriving Repr, DecidableEq, Inhabited

/-- An entry of the trade log (`{ ...originalSignal, ...tradeResult,
exitDate, profit, profitPct }`; the spread is modelled by nesting). -/
structure TradeRecord where
  originalSignal : OriginalSignal
  exitPrice : ℚ
  exitReason : String
  exitDate : ℕ
  profit : ℚ
  profitPct : ℚ
  deriving Repr, DecidableEq, Inhabited

/-- The mutable state threaded through `runBacktest`'s bar loop. -/
structure BTState where
  tradeLog : List TradeRecord
  currentCapital : ℚ
  consecutiveLosses : ℕ
  isObserving : Bool
  openPositions : List Position
  deriving Repr, DecidableEq, Inhabited

/-- Profit of closing `position` at `exitPrice`
(`shares = capitalAllocated / entryPrice`). -/
def profitOf (position : Position) (exitPrice : ℚ) : ℚ :=
  let shares := position.capitalAllocated / position.entryPrice
  if position.isLong then (exitPrice - position.entryPrice) * shares
  else (position.entryPrice - exitPrice) * shares

/-- The realize-an-exit block of `runBacktest` (lines 165–187, repeated
verbatim for same-day exits at lines 275–298): add the profit to capital,
update the loss streak (`profit < 0` increments, otherwise reset to 0),
raise `isObserving` when `preventOnLosses` and the streak reaches 2, and
append the trade record. -/
def realizeExit (preventOnLosses : Bool) (exitDate : ℕ) (position : Position)
    (exitPrice : ℚ) (exitReason : String) (s : BTState) : BTState :=
  let profit := profitOf position exitPrice
  let newLosses := if profit < 0 then s.consecutiveLosses + 1 else 0
  let record : TradeRecord :=
    { originalSignal := position.originalSignal, exitPrice := exitPrice,
      exitReason := exitReason, exitDate := exitDate, profit := profit,
      profitPct := profit / position.capitalAllocated * 100 }
  { s with
    currentCapital := s.currentCapital + profit,
    consecutiveLosses := newLosses,
    isObserving := if preventOnLosses ∧ newLosses ≥ 2 then true else s.isObserving,
    tradeLog := s.tradeLog ++ [record] }

/-- The group-liquidation pass (lines 118–127): collect, per start point,
the first breached stop price; a start point already collected is skipped. -/
def buildOrigins (liquidateGroupOnLoss : Bool) (bar : Bar)
    (openPositions : List Position) : List (String × ℚ) :=
  if liquidateGroupOnLoss then
    openPositions.foldl (fun acc position =>
      if (acc.lookup position.startPointName).isSome then acc
      else if position.isLong ∧ bar.low ≤ position.stopLoss then
        acc ++ [(position.startPointName, position.stopLoss)]
      else if position.isLong = false ∧ bar.high ≥ position.stopLoss then
        acc ++ [(position.startPointName, position.stopLoss)]
      else acc) []
  else []

/-- Exit resolution for one open position on one bar (lines 131–163):
group-liquidation price first (JS truthiness: a stored stop of `0` falls
through), then stop loss, then take profit. -/
def tradeResultFor (origins : List (String × ℚ)) (bar : Bar) (position : Position) :
    Option (ℚ × String) :=
  let liquidationPrice := origins.lookup position.startPointName
  if optTruthy liquidationPrice then some (liquidationPrice.getD 0, "Group Liquidation")
  else if position.isLong then
    if bar.low ≤ position.stopLoss then some (position.stopLoss, "Stop Loss Hit")
    else if bar.high ≥ position.takeProfit then some (position.takeProfit, "Take Profit Hit")
    else none
  else
    if bar.high ≥ position.stopLoss then some (position.stopLoss, "Stop Loss Hit")
    else if bar.low ≤ position.takeProfit then some (position.takeProfit, "Take Profit Hit")
    else none

/-- The closing pass of one bar: resolve each open position in order,
realizing exits and keeping the unresolved ones open. -/
def stepClose (preventOnLosses liquidateGroupOnLoss : Bool) (bar : Bar) (s : BTState) :
    BTState :=
  let origins := buildOrigins liquidateGroupOnLoss bar s.openPositions
  s.openPositions.foldl (fun acc position =>
    match tradeResultFor origins bar position with
    | some r => realizeExit preventOnLosses bar.date position r.1 r.2 acc
    | none => { acc with openPositions := acc.openPositions ++ [position] })
    { s with openPositions := [] }

/-- `MAX_OPEN_POSITIONS = Math.floor(1 / POSITION_SIZE)`. -/
def maxOpenPositions (positionSize : ℚ) : ℤ := Int.floor (1 / positionSize)

/-- The same-day exit check against the entry bar's own high/low
(lines 258–273); a stop breach is assumed before a target breach. -/
def sameDayCheck (bar : Bar) (isLong : Bool) (stopLoss projectedExit : ℚ) :
    Option (ℚ × String) :=
  if isLong then
    if bar.low ≤ stopLoss then some (stopLoss, "Stop Loss Hit (Same Day)")
    else if bar.high ≥ projectedExit then some (projectedExit, "Take Profit Hit (Same Day)")
    else none
  else
    if bar.high ≥ stopLoss then some (stopLoss, "Stop Loss Hit (Same Day)")
    else if bar.low ≤ projectedExit then some (projectedExit, "Take Profit Hit (Same Day)")
    else none

/-- The new position object of lines 233–253. -/
def newPositionOf (signalData : PotentialTrade) (stopLoss projectedExit
    capitalForThisTrade : ℚ) : Position :=
  { entryDate := signalData.tradeSignal.entryDate,
    entryPrice := signalData.tradeSignal.entryPrice,
    isLong := signalData.isLong,
    stopLoss := stopLoss,
    takeProfit := projectedExit,
    capitalAllocated := capitalForThisTrade,
    startPointName := signalData.base.startPointName,
    originalSignal := {
      type := if signalData.isLong then "Long" else "Short",
      entryDate := signalData.tradeSignal.entryDate,
      entryPrice := signalData.tradeSignal.entryPrice,
      ingressDate := signalData.base.startDateUTC,
      lookbackEndDate := signalData.base.lookbackEndDate,
      lookbackPeriod := signalData.base.lookbackPeriod,
      entryPivotHigh := signalData.base.pivotHigh,
      entryPivotLow := signalData.base.pivotLow,
      exitPivot := signalData.tradeSignal.exitPivot,
      projectedExit := projectedExit } }

/-- The new-entry loop of one bar (lines 204–303): stop at the position cap,
ghost-simulate while observing, skip candidates without a truthy stop or
target, otherwise enter with a same-day exit check. -/
def processEntries (preventOnLosses : Bool) (positionSize : ℚ)
    (historicalData : List Bar) (bar : Bar) :
    BTState → List PotentialTrade → BTState
  | s, [] => s
  | s, signalData :: rest =>
    if (s.openPositions.length : ℤ) ≥ maxOpenPositions positionSize then s
    else if preventOnLosses ∧ s.isObserving then
      let outcome := getGhostTradeOutcome signalData historicalData
      let s' := if outcome = some "win" then
          { s with isObserving := false, consecutiveLosses := 0 } else s
      processEntries preventOnLosses positionSize historicalData bar s' rest
    else
      let stopLoss := stopLossOf signalData
      let projectedExit := signalData.tradeSignal.projectedExit
      if !(optTruthy stopLoss) || !(optTruthy projectedExit) then
        processEntries preventOnLosses positionSize historicalData bar s rest
      else
        let sl := stopLoss.getD 0
        let pe := projectedExit.getD 0
        let capitalForThisTrade := s.currentCapital * positionSize
        let newPosition := newPositionOf signalData sl pe capitalForThisTrade
        match sameDayCheck bar signalData.isLong sl pe with
        | some r =>
          processEntries preventOnLosses positionSize historicalData bar
            (realizeExit preventOnLosses bar.date newPosition r.1 r.2 s) rest
        | none =>
          processEntries preventOnLosses positionSize historicalData bar
            { s with openPositions := s.openPositions ++ [newPosition] } rest

/-- One iteration of the bar-by-bar loop of `runBacktest`. -/
def processBar (preventOnLosses liquidateGroupOnLoss allowSingleTradePerBar : Bool)
    (positionSize : ℚ) (historicalData : List Bar)
    (signalsByEntryBar : List (ℕ × List PotentialTrade)) (s : BTState) (bar : Bar) :
    BTState :=
  let s1 := stepClose preventOnLosses liquidateGroupOnLoss bar s
  let signalsForThisBar := (signalsByEntryBar.lookup bar.date).getD []
  let signalsToProcess :=
    if allowSingleTradePerBar ∧ signalsForThisBar.length > 0 then signalsForThisBar.take 1
    else signalsForThisBar
  processEntries preventOnLosses positionSize historicalData bar s1 signalsToProcess

/-- The end-of-series forced close (lines 308–325): every still-open
position is closed at the final bar's close, with no loss-streak update. -/
def closeAtEnd (historicalData : List Bar) (s : BTState) : BTState :=
  let lastDay := historicalData.getLast?.getD default
  s.openPositions.foldl (fun acc position =>
    let profit := profitOf position lastDay.close
    let record : TradeRecord :=
      { originalSignal := position.originalSignal, exitPrice := lastDay.close,
        exitReason := "End of Test", exitDate := lastDay.date, profit := profit,
        profitPct := profit / position.capitalAllocated * 100 }
    { acc with
      currentCapital := acc.currentCapital + profit,
      tradeLog := acc.tradeLog ++ [record] }) s

/-- The summary block of `runBacktest`.  The `cagr` field is a
floating-point `Math.pow` over wall-clock year fractions; it is embedded
separately as `cagrOf` to keep the result type decidable. -/
structure BTSummary where
  totalTrades : ℕ
  winningTrades : ℕ
  losingTrades : ℕ
  winRate : ℚ
  totalProfit : ℚ
  initialCapital : ℚ
  finalCapital : ℚ
  deriving Repr, DecidableEq, Inhabited

/-- The value returned by `runBacktest`. -/
structure BTResult where
  tradeLog : List TradeRecord
  summary : BTSummary
  deriving Repr, DecidableEq, Inhabited

/-- The state `runBacktest` starts from: an empty log, the initial capital,
no losses, not observing, no open positions. -/
def initialState (initialCapital : ℚ) : BTState :=
  { tradeLog := [], currentCapital := initialCapital,
    consecutiveLosses := 0, isObserving := false, openPositions := [] }

/-- The CAGR computation of lines 333–342 (real-valued because of the
fractional power). -/
noncomputable def cagrOf (tradeLog : List TradeRecord) (initialCapital finalCapital : ℚ) : ℝ :=
  if tradeLog.length > 0 then
    let firstTradeDate := (tradeLog.headD default).originalSignal.entryDate.getD 0
    let lastTradeDate := (tradeLog.getLast?.getD default).exitDate
    let years : ℝ := ((lastTradeDate : ℝ) - (firstTradeDate : ℝ)) / (1000 * 60 * 60 * 24 * 365.25)
    if years > 0 then (((finalCapital : ℝ) / (initialCapital : ℝ)) ^ ((1 : ℝ) / years) - 1) * 100
    else 0
  else 0

/-- `runBacktest` from `backtester.js`. -/
def runBacktest (signals : List SignalRecord) (historicalData : List Bar)
    (initialCapital : ℚ := 1000) (preventOnLosses : Bool := false)
    (liquidateGroupOnLoss : Bool := false) (allowSingleTradePerBar : Bool := false)
    (positionSize : ℚ := 1 / 10) : BTResult :=
  let signalsByEntryBar := groupSignalsByEntryBar signals
  let sLoop := historicalData.foldl
    (processBar preventOnLosses liquidateGroupOnLoss allowSingleTradePerBar positionSize
      historicalData signalsByEntryBar) (initialState initialCapital)
  let sEnd := closeAtEnd historicalData sLoop
  let sortedLog := sEnd.tradeLog.insertionSort (fun a b =>
    a.originalSignal.entryDate.getD 0 ≤ b.originalSignal.entryDate.getD 0)
  let totalTrades := sortedLog.length
  let winningTrades := (sortedLog.filter (fun t => t.profit > 0)).length
  let summary : BTSummary :=
    { totalTrades := totalTrades,
      winningTrades := winningTrades,
      losingTrades := totalTrades - winningTrades,
      winRate := if totalTrades > 0 then ((winningTrades : ℚ) / (totalTrades : ℚ)) * 100 else 0,
      totalProfit := sEnd.currentCapital - initialCapital,
      initialCapital := initialCapital,
      finalCapital := sEnd.currentCapital }
  { tradeLog := sortedLog, summary := summary }

/-! ## `scripts/finalBot/portfolioBacktester.js` — signal assembly -/

/-- `SCALING_ATR_PERIOD` of `portfolioBacktester.js`. -/
def SCALING_ATR_PERIOD : ℕ := 50

/-- `SCALING_TREND_PIVOTS` of `portfolioBacktester.js`. -/
def SCALING_TREND_PIVOTS : ℕ := 4

/-- `SCALING_LOOKBACK` of `portfolioBacktester.js`. -/
def SCALING_LOOKBACK : ℕ := 180

/-- `TREND_WEIGHT` of `portfolioBacktester.js`. -/
def TREND_WEIGHT : ℚ := 6 / 10

/-- `VOLATILITY_WEIGHT` of `portfolioBacktester.js`. -/
def VOLATILITY_WEIGHT : ℚ := 4 / 10

/-- The scaling-factor combination of lines 534–541: initialised to `1`,
replaced by the weighted blend when both ratios are truthy, by
`trendRatio || volatilityRatio` when at least one is. -/
def finalScalingFactor (trendRatio volatilityRatio : Option ℚ) : ℚ :=
  if optTruthy trendRatio ∧ optTruthy volatilityRatio then
    trendRatio.getD 0 * TREND_WEIGHT + volatilityRatio.getD 0 * VOLATILITY_WEIGHT
  else if optTruthy trendRatio ∨ optTruthy volatilityRatio then
    (if optTruthy trendRatio then trendRatio.getD 0 else volatilityRatio.getD 0)
  else 1

/-- The exit pivot as handed to `calculateProjectedExit`.  The source object
carries a single price field, which is exactly the one the calculator reads
for the matching signal type (`pivot.low` of a low pivot for LONG,
`pivot.high` of a high pivot for SHORT); the never-read field is modelled by
duplicating the price. -/
def projPivotOf : ExitPivot → ProjPivot
  | .lowPivot _ l => { low := (l : ℝ), high := (l : ℝ) }
  | .highPivot _ h => { low := (h : ℝ), high := (h : ℝ) }

/-- `calculateAndSetExit` from the `POST` handler of
`portfolioBacktester.js` (lines 504–555): resolve the trigger bar, look
backwards for an exit-projection pivot, derive the scaling factor, and set
`projectedExit` when the factor is positive; in every failure case the
signal is returned unchanged — it is never dropped. -/
noncomputable def calculateAndSetExit (processedData : List Bar) (signalType : SignalType) :
    Option AsmSignal → Option AsmSignal
  | none => none
  | some signal =>
    match processedData.findIdx? (fun d => d.date == signal.triggerDate) with
    | some triggerIndex =>
      if 0 < triggerIndex then
        let historyBeforeTrigger := processedData.take triggerIndex
        match findExitProjectionPivot historyBeforeTrigger signalType with
        | some exitPivot =>
          let pivotIndex : ℤ :=
            match processedData.findIdx? (fun d => d.date == exitPivot.date) with
            | some i => (i : ℤ)
            | none => -1
          let scalingHistory :=
            (processedData.take triggerIndex).drop (triggerIndex - SCALING_LOOKBACK)
          let trendRatio := calculateTrendStructureRatio scalingHistory SCALING_TREND_PIVOTS
          let volatilityRatio := calculateATR scalingHistory SCALING_ATR_PERIOD
          let fsf := finalScalingFactor trendRatio volatilityRatio
          let projection : Option ℝ :=
            calculateProjectedExit (some signalType)
              (some (((processedData.getD triggerIndex default).close : ℚ) : ℝ))
              (some (projPivotOf exitPivot))
              (some ((((triggerIndex : ℤ) - pivotIndex) : ℤ) : ℝ)) ((fsf : ℚ) : ℝ)
          let signal' :=
            if fsf > 0 then { signal with projectedExit := projection }
            else signal
          some { signal' with exitPivot := some exitPivot }
        | none => some signal
      else some signal
    | none => some signal

/-- The record pushed onto `allGeneratedSignals` (lines 563–573). -/
structure AsmGeneratedSignal where
  startPointName : String
  startDateUTC : String
  lookbackPeriod : ℕ
  lookbackEndDate : ℕ
  pivotHigh : Option PivotHigh
  pivotLow : Option PivotLow
  longSignal : Option AsmSignal
  shortSignal : Option AsmSignal

/-- The body of the per-(start point, lookback period) iteration of the
`POST` handler's main loop (lines 480–573): build the stop-loss window, find
pivots, scan for signals, attach exit projections, and push the record —
unconditionally, whether or not the projections resolved. -/
noncomputable def generateSignalRecord (processedData : List Bar)
    (startPointName startDateUTC : String) (startIndex lookbackPeriod : ℕ) :
    Option AsmGeneratedSignal :=
  let pointYIndex := startIndex + lookbackPeriod
  if pointYIndex ≥ processedData.length then none
  else
    let lookbackBar := processedData.getD pointYIndex default
    let stoplossScanWindow := (processedData.take (pointYIndex + 1)).drop startIndex
    let pivots := findInitialPivots stoplossScanWindow
    let signalScanWindow := processedData.drop (pointYIndex + 1)
    let signals := findFutureSignals signalScanWindow pivots.1 pivots.2
    let longSignal := calculateAndSetExit processedData .LONG signals.1
    let shortSignal := calculateAndSetExit processedData .SHORT signals.2
    some { startPointName := startPointName, startDateUTC := startDateUTC,
           lookbackPeriod := lookbackPeriod, lookbackEndDate := lookbackBar.date,
           pivotHigh := pivots.1, pivotLow := pivots.2,
           longSignal := longSignal, shortSignal := shortSignal }

/-! ## Claims -/

/-- C10: in `runBacktest`'s signal grouping, each candidate record
contributes at most one potential trade: a record with a `longSignal` is
mapped to a long trade and its `shortSignal` is never consulted; with only a
`shortSignal` it is mapped to a short trade; with neither, or when the
chosen signal has no `entryDate`, the record is dropped; and the potential
trades never outnumber the records. -/
theorem claim10_one_trade_per_record (sd : SignalRecord) :
    (∀ ls, sd.longSignal = some ls → chooseTrade sd = some ⟨sd, ls, true⟩) ∧
    (sd.longSignal = none → ∀ ss, sd.shortSignal = some ss →
      chooseTrade sd = some ⟨sd, ss, false⟩) ∧
    (sd.longSignal = none → sd.shortSignal = none → chooseTrade sd = none) ∧
    (allPotentialTrades [sd]).length ≤ 1 ∧
    (∀ tr, chooseTrade sd = some tr → tr.tradeSignal.entryDate = none →
      allPotentialTrades [sd] = []) ∧
    (∀ signals : List SignalRecord,
      (allPotentialTrades signals).length ≤ signals.length) := by
  refine ⟨?_, ?_, ?_, ?_, ?_, ?_⟩
  · intro ls h
    simp [chooseTrade, h]
  · intro h ss h'
    simp [chooseTrade, h, h']
  · intro h h'
    simp [chooseTrade, h, h']
  · have hlen : (allPotentialTrades [sd]).length =
        (((([sd] : List SignalRecord).filterMap chooseTrade).filter
          (fun trade => trade.tradeSignal.entryDate.isSome)).length) := by
      simp [allPotentialTrades, List.length_insertionSort]
    rw [hlen]
    calc ((([sd] : List SignalRecord).filterMap chooseTrade).filter
          (fun trade => trade.tradeSignal.entryDate.isSome)).length
        ≤ (([sd] : List SignalRecord).filterMap chooseTrade).length :=
          List.length_filter_le _ _
      _ ≤ ([sd] : List SignalRecord).length := List.length_filterMap_le _ _
      _ = 1 := rfl
  · intro tr h h'
    simp [allPotentialTrades, List.filterMap, h, h']
  · intro signals
    have hlen : (allPotentialTrades signals).length =
        (((signals.filterMap chooseTrade).filter
          (fun trade => trade.tradeSignal.entryDate.isSome)).length) := by
      simp [allPotentialTrades, List.length_insertionSort]
    rw [hlen]
    calc ((signals.filterMap chooseTrade).filter
          (fun trade => trade.tradeSignal.entryDate.isSome)).length
        ≤ (signals.filterMap chooseTrade).length := List.length_filter_le _ _
      _ ≤ signals.length := List.length_filterMap_le _ _

/-- C10 witness: a record carrying both a long and a short signal is mapped
to its long trade only. -/
theorem claim10_one_trade_per_record_witness :
    chooseTrade { longSignal := some { entryDate := some 5, entryPrice := 10 },
                  shortSignal := some { entryDate := some 6, entryPrice := 11 } } =
      some ⟨{ longSignal := some { entryDate := some 5, entryPrice := 10 },
              shortSignal := some { entryDate := some 6, entryPrice := 11 } },
            { entryDate := some 5, entryPrice := 10 }, true⟩ :=
  (claim10_one_trade_per_record _).1 _ rfl

/-- C3 counterexample: with every required input present and a positive
scaling factor, a LONG projection whose trigger price sits exactly on the
pivot low with `timeDifference = 0` returns the trigger price itself — not
a price strictly greater; and a trigger price of `0` yields `null` although
no input is missing and the scaling factor is positive. -/
theorem claim3_counterexample :
    calculateProjectedExit (some .LONG) (some 10)
        (some { low := 10, high := 10 }) (some 0) 1 = some 10 ∧
    ¬ (∀ p : ℝ, calculateProjectedExit (some .LONG) (some 10)
        (some { low := 10, high := 10 }) (some 0) 1 = some p → 10 < p) ∧
    calculateProjectedExit (some .LONG) (some 0)
        (some { low := 1, high := 2 }) (some 3) 1 = none := by
  have h1 : calculateProjectedExit (some .LONG) (some 10)
      (some { low := 10, high := 10 }) (some 0) 1 = some 10 := by
    simp only [calculateProjectedExit]
    rw [if_neg (by norm_num)]
    norm_num
  refine ⟨h1, ?_, ?_⟩
  · intro h
    exact absurd (h 10 h1) (by norm_num)
  · simp only [calculateProjectedExit]
    rw [if_pos (by norm_num)]

/-- C3 amended: `calculateProjectedExit` returns `null` exactly when an
input is missing, the trigger price is `0` (JS falsiness of a number), or
`scalingFactor ≤ 0`; on every other input it returns the geometric
projection `triggerPrice ± scalingFactor·√(timeDifference² +
(|triggerPrice − pivotPrice|/scalingFactor)²)` (pivot low for LONG, pivot
high for SHORT), which lies on the favourable side of the trigger price,
strictly so whenever `timeDifference ≠ 0` or the trigger price differs
from the pivot price. -/
theorem claim3_projection_formula (tp : ℝ) (pv : ProjPivot) (td sf : ℝ) :
    (∀ (a : Option SignalType) (b : Option ℝ) (c : Option ProjPivot) (d : Option ℝ),
      a = none ∨ b = none ∨ c = none ∨ d = none →
      calculateProjectedExit a b c d sf = none) ∧
    (∀ st, tp = 0 ∨ sf ≤ 0 →
      calculateProjectedExit (some st) (some tp) (some pv) (some td) sf = none) ∧
    (tp ≠ 0 → 0 < sf →
      calculateProjectedExit (some .LONG) (some tp) (some pv) (some td) sf =
          some (tp + Real.sqrt (td ^ 2 + (|tp - pv.low| / sf) ^ 2) * sf) ∧
      calculateProjectedExit (some .SHORT) (some tp) (some pv) (some td) sf =
          some (tp - Real.sqrt (td ^ 2 + (|tp - pv.high| / sf) ^ 2) * sf) ∧
      tp ≤ tp + Real.sqrt (td ^ 2 + (|tp - pv.low| / sf) ^ 2) * sf ∧
      tp - Real.sqrt (td ^ 2 + (|tp - pv.high| / sf) ^ 2) * sf ≤ tp ∧
      (td ≠ 0 ∨ tp ≠ pv.low →
        tp < tp + Real.sqrt (td ^ 2 + (|tp - pv.low| / sf) ^ 2) * sf) ∧
      (td ≠ 0 ∨ tp ≠ pv.high →
        tp - Real.sqrt (td ^ 2 + (|tp - pv.high| / sf) ^ 2) * sf < tp)) := by
  refine ⟨?_, ?_, ?_⟩
  · intro a b c d h
    rcases a with _ | a' <;> rcases b with _ | b' <;> rcases c with _ | c' <;>
      rcases d with _ | d' <;> simp_all [calculateProjectedExit]
  · intro st h
    cases st <;> · simp only [calculateProjectedExit]; rw [if_pos h]
  · intro htp hsf
    have hguard : ¬ (tp = 0 ∨ sf ≤ 0) := by
      push_neg
      exact ⟨htp, hsf⟩
    have hlong : calculateProjectedExit (some .LONG) (some tp) (some pv) (some td) sf =
        some (tp + Real.sqrt (td ^ 2 + (|tp - pv.low| / sf) ^ 2) * sf) := by
      simp only [calculateProjectedExit]
      rw [if_neg hguard]
    have hshort : calculateProjectedExit (some .SHORT) (some tp) (some pv) (some td) sf =
        some (tp - Real.sqrt (td ^ 2 + (|tp - pv.high| / sf) ^ 2) * sf) := by
      simp only [calculateProjectedExit]
      rw [if_neg hguard]
    have hrad : ∀ x : ℝ, 0 ≤ Real.sqrt (td ^ 2 + (|tp - x| / sf) ^ 2) * sf := by
      intro x
      exact mul_nonneg (Real.sqrt_nonneg _) hsf.le
    have hradpos : ∀ x : ℝ, (td ≠ 0 ∨ tp ≠ x) →
        0 < Real.sqrt (td ^ 2 + (|tp - x| / sf) ^ 2) * sf := by
      intro x hx
      refine mul_pos (Real.sqrt_pos.mpr ?_) hsf
      rcases hx with hx | hx
      · exact add_pos_of_pos_of_nonneg (pow_two_pos_of_ne_zero hx) (by positivity)
      · refine add_pos_of_nonneg_of_pos (by positivity) ?_
        exact pow_two_pos_of_ne_zero
          (div_ne_zero (abs_ne_zero.mpr (sub_ne_zero.mpr hx)) (ne_of_gt hsf))
    refine ⟨hlong, hshort, le_add_of_nonneg_right (hrad pv.low),
      by linarith [hrad pv.high], ?_, ?_⟩
    · intro hx
      linarith [hradpos pv.low hx]
    · intro hx
      linarith [hradpos pv.high hx]

/-- C3 witness: a LONG projection with trigger 10, pivot low 6, three bars
elapsed and scaling factor 1 resolves to `10 + √(3² + 4²) = 15`, strictly
above the trigger price. -/
theorem claim3_projection_formula_witness :
    calculateProjectedExit (some .LONG) (some 10)
        (some { low := 6, high := 6 }) (some 3) 1 = some 15 ∧ (10 : ℝ) < 15 := by
  have h := (claim3_projection_formula 10 { low := 6, high := 6 } 3 1).2.2
    (by norm_num) (by norm_num)
  have hs : Real.sqrt ((3 : ℝ) ^ 2 + (|(10 : ℝ) - 6| / 1) ^ 2) = 5 := by
    rw [show (3 : ℝ) ^ 2 + (|(10 : ℝ) - 6| / 1) ^ 2 = 5 ^ 2 by rw [abs_of_nonneg] <;> norm_num]
    exact Real.sqrt_sq (by norm_num)
  refine ⟨?_, by norm_num⟩
  rw [h.1, hs]
  norm_num

/-- C2 amended: the assembler's scaling factor is the 0.6/0.4 blend when
both ratios are truthy (non-null and nonzero), the truthy one when exactly
one is, and the constant `1` — which passes the positive-factor guard, so a
projected exit IS computed with it — when neither ratio is truthy. -/
theorem claim2_scaling_combination (t v : ℚ) :
    (t ≠ 0 → v ≠ 0 →
      finalScalingFactor (some t) (some v) = t * TREND_WEIGHT + v * VOLATILITY_WEIGHT) ∧
    (t ≠ 0 → finalScalingFactor (some t) none = t) ∧
    (v ≠ 0 → finalScalingFactor none (some v) = v) ∧
    (t = 0 → v ≠ 0 → finalScalingFactor (some t) (some v) = v) ∧
    (t ≠ 0 → v = 0 → finalScalingFactor (some t) (some v) = t) ∧
    finalScalingFactor none none = 1 ∧
    (t = 0 → v = 0 → finalScalingFactor (some t) (some v) = 1) ∧
    (0 : ℚ) < finalScalingFactor none none := by
  refine ⟨?_, ?_, ?_, ?_, ?_, by rfl, ?_, by norm_num [finalScalingFactor, optTruthy]⟩
  · intro ht hv
    simp [finalScalingFactor, optTruthy, ht, hv]
  · intro ht
    simp [finalScalingFactor, optTruthy, ht]
  · intro hv
    simp [finalScalingFactor, optTruthy, hv]
  · intro ht hv
    simp [finalScalingFactor, optTruthy, ht, hv]
  · intro ht hv
    simp [finalScalingFactor, optTruthy, ht, hv]
  · intro ht hv
    simp [finalScalingFactor, optTruthy, ht, hv]

/-- C2 witness: with trend ratio 2 and volatility ratio 3 the factor is
`2·0.6 + 3·0.4 = 12/5`. -/
theorem claim2_scaling_combination_witness :
    finalScalingFactor (some 2) (some 3) = 12 / 5 := by
  have h := (claim2_scaling_combination 2 3).1 (by norm_num) (by norm_num)
  rw [h]
  norm_num [TREND_WEIGHT, VOLATILITY_WEIGHT]

/-- Five bars feeding the assembler for the C2 counterexample: a short
series on which neither scaling ratio is computable. -/
def c2bars : List Bar :=
  [{ date := 0, open_ := 5, high := 6, low := 5, close := 5, volume := 0 },
   { date := 1, open_ := 4, high := 5, low := 4, close := 9 / 2, volume := 0 },
   { date := 2, open_ := 6, high := 7, low := 6, close := 6, volume := 0 },
   { date := 3, open_ := 5, high := 6, low := 5, close := 11 / 2, volume := 0 },
   { date := 4, open_ := 5, high := 6, low := 5, close := 5, volume := 0 }]

/-- A long signal triggering on the fourth bar of `c2bars`. -/
def c2sig : AsmSignal :=
  { triggerDate := 3, entryDate := 4, entryPrice := 5,
    reason := "Closed above fractal high" }

/-- C2 counterexample: on `c2bars` the trigger's scaling history yields
neither a trend-structure ratio nor an ATR ratio, yet the assembler still
computes a projected exit — using the default constant scaling factor `1` —
instead of propagating absence. -/
theorem claim2_counterexample :
    calculateTrendStructureRatio ((c2bars.take 3).drop (3 - SCALING_LOOKBACK))
        SCALING_TREND_PIVOTS = none ∧
    calculateATR ((c2bars.take 3).drop (3 - SCALING_LOOKBACK)) SCALING_ATR_PERIOD = none ∧
    calculateAndSetExit c2bars .LONG (some c2sig) =
      some { c2sig with projectedExit := some 8, exitPivot := some (.lowPivot 1 4) } := by
  refine ⟨by rfl, by rfl, ?_⟩
  have hidx : c2bars.findIdx? (fun d => d.date == c2sig.triggerDate) = some 3 := by rfl
  have hpiv : findExitProjectionPivot (c2bars.take 3) .LONG = some (.lowPivot 1 4) := by rfl
  have hpidx : c2bars.findIdx? (fun d => d.date == (ExitPivot.lowPivot 1 4).date) = some 1 := by
    rfl
  have htrend : calculateTrendStructureRatio ((c2bars.take 3).drop (3 - SCALING_LOOKBACK))
      SCALING_TREND_PIVOTS = none := by rfl
  have hatr : calculateATR ((c2bars.take 3).drop (3 - SCALING_LOOKBACK))
      SCALING_ATR_PERIOD = none := by rfl
  have hfsf : finalScalingFactor none none = 1 := by rfl
  have hclose : (c2bars.getD 3 default).close = 11 / 2 := by rfl
  simp only [calculateAndSetExit, hidx, hpiv, hpidx, htrend, hatr, hfsf, hclose]
  norm_num
  have hproj : calculateProjectedExit (some .LONG) (some ((11 : ℝ) / 2))
      (some (projPivotOf (.lowPivot 1 4))) (some 2) 1 = some 8 := by
    rw [calculateProjectedExit_long_eq _ _ _ _ (by norm_num) (by norm_num)]
    congr 1
    have harg : (2 : ℝ) ^ 2 +
        (|(11 : ℝ) / 2 - (projPivotOf (.lowPivot 1 4)).low| / 1) ^ 2 = (5 / 2) ^ 2 := by
      simp only [projPivotOf]
      rw [abs_of_nonneg (by push_cast; norm_num)]
      push_cast
      norm_num
    rw [harg, Real.sqrt_sq (by norm_num)]
    norm_num
  rw [hproj]

/-- C4 amended: at every realized exit (`realizeExit` is the block used for
ordinary, group-liquidation and same-day exits alike), the loss streak is
incremented exactly when the profit is strictly negative and reset to 0 when
it is non-negative (a zero-profit exit resets it); with `preventOnLosses`,
`isObserving` is raised exactly when the updated streak reaches 2. -/
theorem claim4_loss_streak (pol : Bool) (d : ℕ) (p : Position) (x : ℚ)
    (r : String) (s : BTState) :
    (profitOf p x < 0 →
      (realizeExit pol d p x r s).consecutiveLosses = s.consecutiveLosses + 1) ∧
    (0 ≤ profitOf p x → (realizeExit pol d p x r s).consecutiveLosses = 0) ∧
    (pol = true → 2 ≤ (realizeExit pol d p x r s).consecutiveLosses →
      (realizeExit pol d p x r s).isObserving = true) ∧
    (pol = true → (realizeExit pol d p x r s).consecutiveLosses < 2 →
      (realizeExit pol d p x r s).isObserving = s.isObserving) := by
  by_cases h : profitOf p x < 0
  · refine ⟨fun _ => by simp [realizeExit, h], fun h' => absurd h (not_lt.mpr h'), ?_, ?_⟩
    · intro hpol h2
      simp only [realizeExit, if_pos h] at h2 ⊢
      rw [if_pos]
      exact ⟨by simp [hpol], h2⟩
    · intro hpol h2
      simp only [realizeExit, if_pos h] at h2 ⊢
      rw [if_neg]
      intro hc
      exact absurd hc.2 (not_le.mpr h2)
  · refine ⟨fun h' => absurd h' h, fun _ => by simp [realizeExit, h], ?_, ?_⟩
    · intro hpol h2
      simp only [realizeExit, if_neg h] at h2
      omega
    · intro hpol h2
      simp only [realizeExit, if_neg h]
      rw [if_neg]
      simp

/-- The position whose same-day exit on the third bar of `c4bars` realizes a
profit of exactly zero. -/
def c4pos : Position :=
  { entryDate := some 3, entryPrice := 10, isLong := true, stopLoss := 10,
    takeProfit := 12, capitalAllocated := 98, startPointName := "b",
    originalSignal := default }

/-- The simulator state just before that exit: one prior loss, capital 980,
not observing. -/
def c4state : BTState :=
  { tradeLog := [], currentCapital := 980, consecutiveLosses := 1,
    isObserving := false, openPositions := [] }

/-- Six bars: the first candidate loses, the second exits same-day at its
stop with profit exactly 0, the third wins. -/
def c4bars : List Bar :=
  [{ date := 1, open_ := 10, high := 11, low := 9, close := 10, volume := 0 },
   { date := 2, open_ := 9, high := 10, low := 7, close := 9, volume := 0 },
   { date := 3, open_ := 10, high := 11, low := 10, close := 21 / 2, volume := 0 },
   { date := 4, open_ := 10, high := 21 / 2, low := 10, close := 10, volume := 0 },
   { date := 5, open_ := 10, high := 21 / 2, low := 9, close := 10, volume := 0 },
   { date := 6, open_ := 52 / 5, high := 23 / 2, low := 51 / 5, close := 11, volume := 0 }]

/-- Three long candidates entering on bars 1, 3 and 5 of `c4bars`. -/
def c4sigs : List SignalRecord :=
  [{ longSignal := some { entryDate := some 1, entryPrice := 10, projectedExit := some 12 },
     pivotLow := some { date := 0, low := 8 }, startPointName := "a" },
   { longSignal := some { entryDate := some 3, entryPrice := 10, projectedExit := some 12 },
     pivotLow := some { date := 0, low := 10 }, startPointName := "b" },
   { longSignal := some { entryDate := some 5, entryPrice := 10, projectedExit := some 11 },
     pivotLow := some { date := 0, low := 8 }, startPointName := "c" }]

/-- C4 counterexample: a realized exit with profit exactly `0` (non-positive)
resets the streak to 0 instead of incrementing it, and leaves `isObserving`
down; consequently, in the `c4bars`/`c4sigs` run with `preventOnLosses` (one
loss, then a zero-profit exit), the third candidate is traded for real and
the log holds 3 trades with profits `[-20, 0, 9.8]` — had the zero-profit
exit incremented the streak to 2, the third candidate would only have been
ghost-simulated and never logged. -/
theorem claim4_counterexample :
    profitOf c4pos 10 = 0 ∧
    (realizeExit true 3 c4pos 10 "Stop Loss Hit (Same Day)" c4state).consecutiveLosses = 0 ∧
    (realizeExit true 3 c4pos 10 "Stop Loss Hit (Same Day)" c4state).isObserving = false ∧
    (runBacktest c4sigs c4bars 1000 true false false (1 / 10)).summary.totalTrades = 3 ∧
    (runBacktest c4sigs c4bars 1000 true false false (1 / 10)).tradeLog.map
      TradeRecord.profit = [-20, 0, 49 / 5] :=
  of_decide_eq_true (by with_unfolding_all rfl)

/-- C4 witness: a strictly losing exit (profit `-19.6`) on a streak of 1
raises the streak to 2 and, with `preventOnLosses`, flips `isObserving`. -/
theorem claim4_loss_streak_witness :
    (realizeExit true 2 c4pos 8 "Stop Loss Hit" c4state).consecutiveLosses = 2 ∧
    (realizeExit true 2 c4pos 8 "Stop Loss Hit" c4state).isObserving = true := by
  have h := claim4_loss_streak true 2 c4pos 8 "Stop Loss Hit" c4state
  have hneg : profitOf c4pos 8 < 0 := of_decide_eq_true (by with_unfolding_all rfl)
  have h1 : (realizeExit true 2 c4pos 8 "Stop Loss Hit" c4state).consecutiveLosses = 2 := by
    rw [h.1 hneg]
    rfl
  exact ⟨h1, h.2.2.1 rfl (by rw [h1])⟩

/-- C5: with `preventOnLosses` enabled and `isObserving` set, a candidate
reaching the entry loop is only ghost-simulated: a ghost "win" clears
`isObserving` and the loss streak while the trade is still not taken, any
other outcome leaves the state unchanged, and in both cases capital, open
positions and the trade log are untouched by the candidate. -/
theorem claim5_observing_circuit_breaker (ps : ℚ) (hist : List Bar) (bar : Bar)
    (s : BTState) (sd : PotentialTrade) (rest : List PotentialTrade)
    (hobs : s.isObserving = true)
    (hcap : (s.openPositions.length : ℤ) < maxOpenPositions ps) :
    (getGhostTradeOutcome sd hist = some "win" →
      processEntries true ps hist bar s (sd :: rest) =
        processEntries true ps hist bar
          { s with isObserving := false, consecutiveLosses := 0 } rest) ∧
    (getGhostTradeOutcome sd hist ≠ some "win" →
      processEntries true ps hist bar s (sd :: rest) =
        processEntries true ps hist bar s rest) ∧
    ({ s with isObserving := false, consecutiveLosses := 0 } : BTState).currentCapital =
      s.currentCapital ∧
    ({ s with isObserving := false, consecutiveLosses := 0 } : BTState).openPositions =
      s.openPositions ∧
    ({ s with isObserving := false, consecutiveLosses := 0 } : BTState).tradeLog =
      s.tradeLog := by
  refine ⟨?_, ?_, rfl, rfl, rfl⟩
  · intro hw
    simp only [processEntries]
    rw [if_neg (not_le.mpr hcap)]
    simp [hobs, hw]
  · intro hw
    simp only [processEntries]
    rw [if_neg (not_le.mpr hcap)]
    simp [hobs, hw]

/-- The observing-state fixture for the C5 witness: loss streak 2,
`isObserving` raised, no open positions. -/
def c5state : BTState :=
  { tradeLog := [], currentCapital := 1000, consecutiveLosses := 2,
    isObserving := true, openPositions := [] }

/-- A candidate whose ghost replay on `c5hist` wins. -/
def c5sd : PotentialTrade :=
  { base := { pivotLow := some { date := 0, low := 8 }, startPointName := "g" },
    tradeSignal := { entryDate := some 1, entryPrice := 9, projectedExit := some 10 },
    isLong := true }

/-- A one-bar history whose high reaches the candidate's target. -/
def c5hist : List Bar :=
  [{ date := 1, open_ := 9, high := 21 / 2, low := 17 / 2, close := 10, volume := 0 }]

/-- C5 witness: on the concrete observing state the ghost outcome is a win,
and processing the candidate only clears the observing flag and the streak —
the trade itself is not taken (same capital, no position, no log entry). -/
theorem claim5_observing_circuit_breaker_witness :
    getGhostTradeOutcome c5sd c5hist = some "win" ∧
    processEntries true (1 / 10) c5hist (c5hist.getD 0 default) c5state [c5sd] =
      { c5state with isObserving := false, consecutiveLosses := 0 } := by
  have hg : getGhostTradeOutcome c5sd c5hist = some "win" :=
    of_decide_eq_true (by with_unfolding_all rfl)
  refine ⟨hg, ?_⟩
  rw [(claim5_observing_circuit_breaker (1 / 10) c5hist (c5hist.getD 0 default) c5state c5sd []
    rfl (of_decide_eq_true (by with_unfolding_all rfl))).1 hg]
  rfl

/-- Helper: one accepted candidate reduces the entry loop to the same-day
dichotomy — realize immediately on a same-day hit, otherwise append the new
position. -/
theorem processEntries_accept (pol : Bool) (ps : ℚ) (hist : List Bar) (bar : Bar)
    (s : BTState) (sd : PotentialTrade) (rest : List PotentialTrade) (sl pe : ℚ)
    (hng : pol = false ∨ s.isObserving = false)
    (hcap : (s.openPositions.length : ℤ) < maxOpenPositions ps)
    (hsl : stopLossOf sd = some sl) (hsl0 : sl ≠ 0)
    (hpe : sd.tradeSignal.projectedExit = some pe) (hpe0 : pe ≠ 0) :
    processEntries pol ps hist bar s (sd :: rest) =
      match sameDayCheck bar sd.isLong sl pe with
      | some r => processEntries pol ps hist bar
          (realizeExit pol bar.date (newPositionOf sd sl pe (s.currentCapital * ps))
            r.1 r.2 s) rest
      | none => processEntries pol ps hist bar
          { s with openPositions :=
              s.openPositions ++ [newPositionOf sd sl pe (s.currentCapital * ps)] } rest := by
  have hno : ¬ (pol = true ∧ s.isObserving = true) := by
    rcases hng with h | h <;> simp [h]
  simp only [processEntries]
  rw [if_neg (not_le.mpr hcap), if_neg hno]
  simp [hsl, hpe, optTruthy, hsl0, hpe0]

/-- C6: for an accepted candidate, the entry bar's own range is checked at
once: a stop touch (long: `low ≤ stop`; short: `high ≥ stop`) realizes the
trade that same bar at the stop price with a "(Same Day)" stop reason — even
if the target is also touched, since the stop is checked first; only
otherwise does a target touch realize it at the target price; in either
same-day case the position is never added to `openPositions` (the realize
step leaves them unchanged) and the record lands in the log; with no touch
the position is appended instead. -/
theorem claim6_same_day_exits (pol : Bool) (ps : ℚ) (hist : List Bar) (bar : Bar)
    (s : BTState) (sd : PotentialTrade) (rest : List PotentialTrade) (sl pe : ℚ)
    (hng : pol = false ∨ s.isObserving = false)
    (hcap : (s.openPositions.length : ℤ) < maxOpenPositions ps)
    (hsl : stopLossOf sd = some sl) (hsl0 : sl ≠ 0)
    (hpe : sd.tradeSignal.projectedExit = some pe) (hpe0 : pe ≠ 0) :
    (sd.isLong = true → bar.low ≤ sl →
      processEntries pol ps hist bar s (sd :: rest) =
        processEntries pol ps hist bar
          (realizeExit pol bar.date (newPositionOf sd sl pe (s.currentCapital * ps))
            sl "Stop Loss Hit (Same Day)" s) rest) ∧
    (sd.isLong = false → sl ≤ bar.high →
      processEntries pol ps hist bar s (sd :: rest) =
        processEntries pol ps hist bar
          (realizeExit pol bar.date (newPositionOf sd sl pe (s.currentCapital * ps))
            sl "Stop Loss Hit (Same Day)" s) rest) ∧
    (sd.isLong = true → ¬ bar.low ≤ sl → pe ≤ bar.high →
      processEntries pol ps hist bar s (sd :: rest) =
        processEntries pol ps hist bar
          (realizeExit pol bar.date (newPositionOf sd sl pe (s.currentCapital * ps))
            pe "Take Profit Hit (Same Day)" s) rest) ∧
    (sd.isLong = false → ¬ sl ≤ bar.high → bar.low ≤ pe →
      processEntries pol ps hist bar s (sd :: rest) =
        processEntries pol ps hist bar
          (realizeExit pol bar.date (newPositionOf sd sl pe (s.currentCapital * ps))
            pe "Take Profit Hit (Same Day)" s) rest) ∧
    (sd.isLong = true → ¬ bar.low ≤ sl → ¬ pe ≤ bar.high →
      processEntries pol ps hist bar s (sd :: rest) =
        processEntries pol ps hist bar
          { s with openPositions :=
              s.openPositions ++ [newPositionOf sd sl pe (s.currentCapital * ps)] } rest) ∧
    (sd.isLong = false → ¬ sl ≤ bar.high → ¬ bar.low ≤ pe →
      processEntries pol ps hist bar s (sd :: rest) =
        processEntries pol ps hist bar
          { s with openPositions :=
              s.openPositions ++ [newPositionOf sd sl pe (s.currentCapital * ps)] } rest) ∧
    (∀ d p x r, (realizeExit pol d p x r s).openPositions = s.openPositions) ∧
    (∀ d p x r, (realizeExit pol d p x r s).tradeLog = s.tradeLog ++
      [{ originalSignal := p.originalSignal, exitPrice := x, exitReason := r,
         exitDate := d, profit := profitOf p x,
         profitPct := profitOf p x / p.capitalAllocated * 100 }]) := by
  have hacc := processEntries_accept pol ps hist bar s sd rest sl pe hng hcap hsl hsl0 hpe hpe0
  refine ⟨?_, ?_, ?_, ?_, ?_, ?_, fun d p x r => rfl, fun d p x r => rfl⟩
  · intro hlong htouch
    rw [hacc]
    simp [sameDayCheck, hlong, htouch]
  · intro hshort htouch
    rw [hacc]
    simp [sameDayCheck, hshort, htouch]
  · intro hlong hnstop htp
    rw [hacc]
    simp [sameDayCheck, hlong, hnstop, htp]
  · intro hshort hnstop htp
    rw [hacc]
    simp [sameDayCheck, hshort, hnstop, htp]
  · intro hlong hnstop hntp
    rw [hacc]
    simp [sameDayCheck, hlong, hnstop, hntp]
  · intro hshort hnstop hntp
    rw [hacc]
    simp [sameDayCheck, hshort, hnstop, hntp]

/-- A long candidate with stop 9 and target 11 entering at 10. -/
def c6sd : PotentialTrade :=
  { base := { pivotLow := some { date := 0, low := 9 }, startPointName := "s" },
    tradeSignal := { entryDate := some 1, entryPrice := 10, projectedExit := some 11 },
    isLong := true }

/-- An entry bar touching both the stop (low 8.5) and the target (high
11.5) of `c6sd`. -/
def c6bar : Bar :=
  { date := 1, open_ := 10, high := 23 / 2, low := 17 / 2, close := 10, volume := 0 }

/-- The fresh simulator state for the C6 witness. -/
def c6state : BTState :=
  { tradeLog := [], currentCapital := 1000, consecutiveLosses := 0,
    isObserving := false, openPositions := [] }

/-- C6 witness: on a bar touching both stop and target, the candidate is
realized immediately at the stop price with the same-day stop reason, no
position is left open, and the record is in the log. -/
theorem claim6_same_day_exits_witness :
    processEntries false (1 / 10) [c6bar] c6bar c6state [c6sd] =
      realizeExit false 1 (newPositionOf c6sd 9 11 (1000 * (1 / 10))) 9
        "Stop Loss Hit (Same Day)" c6state ∧
    (realizeExit false 1 (newPositionOf c6sd 9 11 (1000 * (1 / 10))) 9
        "Stop Loss Hit (Same Day)" c6state).openPositions = [] ∧
    (realizeExit false 1 (newPositionOf c6sd 9 11 (1000 * (1 / 10))) 9
        "Stop Loss Hit (Same Day)" c6state).tradeLog.map TradeRecord.exitReason =
      ["Stop Loss Hit (Same Day)"] := by
  have h := claim6_same_day_exits false (1 / 10) [c6bar] c6bar c6state c6sd [] 9 11
    (Or.inl rfl) (of_decide_eq_true (by with_unfolding_all rfl)) rfl
    (of_decide_eq_true (by with_unfolding_all rfl)) rfl
    (of_decide_eq_true (by with_unfolding_all rfl))
  refine ⟨?_, of_decide_eq_true (by with_unfolding_all rfl),
    of_decide_eq_true (by with_unfolding_all rfl)⟩
  rw [h.1 rfl (of_decide_eq_true (by with_unfolding_all rfl))]
  rfl

/-- Five bars for the C1 counterexample: the stop-loss window `[0..2]` has a
high fractal but no low fractal, and the pre-trigger history has no low
fractal either, so a long candidate arises whose stop and exit projection
are both unresolvable. -/
def c1bars : List Bar :=
  [{ date := 0, open_ := 8, high := 10, low := 5, close := 8, volume := 0 },
   { date := 1, open_ := 9, high := 12, low := 6, close := 9, volume := 0 },
   { date := 2, open_ := 9, high := 11, low := 11 / 2, close := 9, volume := 0 },
   { date := 3, open_ := 12, high := 13, low := 12, close := 13, volume := 0 },
   { date := 4, open_ := 14, high := 15, low := 13, close := 14, volume := 0 }]

/-- The long signal the assembler produces on `c1bars`: no exit-projection
pivot resolves, so `projectedExit` stays absent. -/
def c1sig : AsmSignal :=
  { triggerDate := 3, entryDate := 4, entryPrice := 14,
    reason := "Closed above fractal high" }

/-- The record the assembler pushes for `c1bars` (start index 0, lookback
2): the long signal is present although its `projectedExit` is absent. -/
def c1rec : AsmGeneratedSignal :=
  { startPointName := "Auto Pivot", startDateUTC := "d0", lookbackPeriod := 2,
    lookbackEndDate := 2, pivotHigh := some { date := 1, high := 12 },
    pivotLow := none, longSignal := some c1sig, shortSignal := none }

/-- The same candidate as `runBacktest` receives it. -/
def c1brecord : SignalRecord :=
  { longSignal := some { entryDate := some 4, entryPrice := 14, projectedExit := none },
    pivotHigh := some { date := 1, high := 12 }, pivotLow := none,
    startPointName := "Auto Pivot" }

set_option maxRecDepth 10000 in
/-- C1 counterexample: the finalBot assembler does NOT discard a candidate
whose exit projection (and stop pivot) failed to resolve — it pushes the
record with the long signal present and `projectedExit` absent; and the
simulator does receive and skip such a candidate: the grouped potential
trade exists, yet the run opens no position, logs no trade and leaves
capital untouched, exercising the `!stopLoss || !projectedExit` skip inside
`runBacktest` itself. -/
theorem claim1_counterexample :
    generateSignalRecord c1bars "Auto Pivot" "d0" 0 2 = some c1rec ∧
    c1rec.longSignal = some c1sig ∧
    c1sig.projectedExit = none ∧
    (allPotentialTrades [c1brecord]).length = 1 ∧
    (runBacktest [c1brecord] c1bars 1000 false false false (1 / 10)).tradeLog = [] ∧
    (runBacktest [c1brecord] c1bars 1000 false false false (1 / 10)).summary.totalTrades
      = 0 ∧
    (runBacktest [c1brecord] c1bars 1000 false false false (1 / 10)).summary.finalCapital
      = 1000 := by
  refine ⟨by with_unfolding_all rfl, rfl, rfl, ?_, ?_, ?_, ?_⟩
  · exact of_decide_eq_true (by with_unfolding_all rfl)
  · exact of_decide_eq_true (by with_unfolding_all rfl)
  · exact of_decide_eq_true (by with_unfolding_all rfl)
  · exact of_decide_eq_true (by with_unfolding_all rfl)

/-- C1 amended: candidates lacking a resolvable exit-projection pivot are
not discarded by the finalBot assembler — `calculateAndSetExit` returns the
signal unchanged (with `projectedExit` still absent) and the record is
pushed; it is the simulator's own entry loop that skips every candidate
whose stop loss or projected exit is not truthy, leaving the run state
completely unchanged by that candidate. -/
theorem claim1_skip_in_simulator (pol : Bool) (ps : ℚ) (hist : List Bar) (bar : Bar)
    (s : BTState) (sd : PotentialTrade) (rest : List PotentialTrade)
    (hng : pol = false ∨ s.isObserving = false)
    (hcap : (s.openPositions.length : ℤ) < maxOpenPositions ps)
    (hmiss : optTruthy (stopLossOf sd) = false ∨
      optTruthy sd.tradeSignal.projectedExit = false) :
    processEntries pol ps hist bar s (sd :: rest) =
      processEntries pol ps hist bar s rest ∧
    (∀ (pd : List Bar) (st : SignalType) (sig : AsmSignal) (ti : ℕ),
      pd.findIdx? (fun d => d.date == sig.triggerDate) = some ti → 0 < ti →
      findExitProjectionPivot (pd.take ti) st = none →
      calculateAndSetExit pd st (some sig) = some sig) := by
  constructor
  · have hno : ¬ (pol = true ∧ s.isObserving = true) := by
      rcases hng with h | h <;> simp [h]
    simp only [processEntries]
    rw [if_neg (not_le.mpr hcap), if_neg hno]
    rcases hmiss with h | h <;> simp [h]
  · intro pd st sig ti hidx hpos hpiv
    simp only [calculateAndSetExit, hidx, hpiv]
    rw [if_pos hpos]

/-- C1 witness: the skip fires on the concrete candidate of the
counterexample run — processing it changes nothing — and the assembler
returns the concrete pivot-less signal unchanged. -/
theorem claim1_skip_in_simulator_witness :
    processEntries false (1 / 10) c1bars (c1bars.getD 4 default) c6state
      (allPotentialTrades [c1brecord]) = c6state ∧
    calculateAndSetExit c1bars .LONG (some c1sig) = some c1sig := by
  have h := claim1_skip_in_simulator false (1 / 10) c1bars (c1bars.getD 4 default) c6state
    (PotentialTrade.mk c1brecord
      { entryDate := some 4, entryPrice := 14, projectedExit := none } true) []
    (Or.inl rfl) (of_decide_eq_true (by with_unfolding_all rfl))
    (Or.inr rfl)
  constructor
  · have hl : allPotentialTrades [c1brecord] =
        [PotentialTrade.mk c1brecord
          { entryDate := some 4, entryPrice := 14, projectedExit := none } true] :=
      of_decide_eq_true (by with_unfolding_all rfl)
    rw [hl, h.1]
    rfl
  · exact h.2 c1bars .LONG c1sig 3 (of_decide_eq_true (by with_unfolding_all rfl))
      (by norm_num) (of_decide_eq_true (by with_unfolding_all rfl))

/-- Helper: a fold whose step grows the open positions by at most one grows
them by at most the list length. -/
theorem foldl_open_le (f : BTState → Position → BTState)
    (hf : ∀ acc p, (f acc p).openPositions.length ≤ acc.openPositions.length + 1) :
    ∀ (l : List Position) (acc : BTState),
      ((l.foldl f acc).openPositions.length) ≤ acc.openPositions.length + l.length := by
  intro l
  induction l with
  | nil => intro acc; simp
  | cons p rest ih =>
    intro acc
    simp only [List.foldl_cons, List.length_cons]
    calc ((rest.foldl f (f acc p)).openPositions.length)
        ≤ (f acc p).openPositions.length + rest.length := ih (f acc p)
      _ ≤ (acc.openPositions.length + 1) + rest.length :=
          Nat.add_le_add_right (hf acc p) _
      _ = acc.openPositions.length + (rest.length + 1) := by omega

/-- Helper: the closing pass never increases the number of open positions. -/
theorem stepClose_open_le (pol lgl : Bool) (bar : Bar) (s : BTState) :
    (stepClose pol lgl bar s).openPositions.length ≤ s.openPositions.length := by
  simp only [stepClose]
  refine le_trans (foldl_open_le _ ?_ _ _) (by simp)
  intro acc p
  rcases h : tradeResultFor (buildOrigins lgl bar s.openPositions) bar p with _ | r
  · simp [h]
  · simp [h, realizeExit]

/-- Helper: the entry loop preserves the position cap. -/
theorem processEntries_open_le (pol : Bool) (ps : ℚ) (hist : List Bar) (bar : Bar) :
    ∀ (trades : List PotentialTrade) (s : BTState),
      (s.openPositions.length : ℤ) ≤ maxOpenPositions ps →
      ((processEntries pol ps hist bar s trades).openPositions.length : ℤ) ≤
        maxOpenPositions ps := by
  intro trades
  induction trades with
  | nil => intro s h; exact h
  | cons sd rest ih =>
    intro s h
    by_cases h1 : (s.openPositions.length : ℤ) ≥ maxOpenPositions ps
    · simp only [processEntries]
      rw [if_pos h1]
      exact h
    · simp only [processEntries]
      rw [if_neg h1]
      by_cases h2 : pol = true ∧ s.isObserving = true
      · rw [if_pos h2]
        apply ih
        split <;> simpa using h
      · rw [if_neg h2]
        by_cases h3 : (!optTruthy (stopLossOf sd) || !optTruthy sd.tradeSignal.projectedExit)
            = true
        · rw [if_pos h3]
          exact ih s h
        · rw [if_neg h3]
          rcases h4 : sameDayCheck bar sd.isLong ((stopLossOf sd).getD 0)
              ((sd.tradeSignal.projectedExit).getD 0) with _ | r
          · simp only [h4]
            apply ih
            simp only [List.length_append, List.length_cons, List.length_nil]
            push_cast
            omega
          · simp only [h4]
            apply ih
            simpa [realizeExit] using h

/-- Helper: an invariant preserved by the step holds along the whole scan. -/
theorem scanl_inv (f : BTState → Bar → BTState) (P : BTState → Prop)
    (hf : ∀ s b, P s → P (f s b)) :
    ∀ (l : List Bar) (s : BTState), P s → ∀ t ∈ l.scanl f s, P t := by
  intro l
  induction l with
  | nil =>
    intro s hs t ht
    simp only [List.scanl_nil, List.mem_singleton] at ht
    exact ht ▸ hs
  | cons b bs ih =>
    intro s hs t ht
    rw [List.scanl_cons] at ht
    simp only [List.singleton_append, List.mem_cons] at ht
    rcases ht with ht | ht
    · exact ht ▸ hs
    · exact ih (f s b) (hf s b hs) t ht

/-- C7: with a positive position-size fraction, the number of simultaneously
open positions never exceeds `floor(1/positionSizeFraction)` at any point of
the bar-by-bar loop: the bound holds at every state of the scan of
`runBacktest`'s loop, the entry loop preserves it from any state, and the
closing pass can only shrink the open set. -/
theorem claim7_position_cap (signals : List SignalRecord) (historicalData : List Bar)
    (ic : ℚ) (pol lgl astb : Bool) (ps : ℚ) (hps : 0 < ps) :
    (∀ s ∈ historicalData.scanl
        (processBar pol lgl astb ps historicalData (groupSignalsByEntryBar signals))
        (initialState ic),
      (s.openPositions.length : ℤ) ≤ maxOpenPositions ps) ∧
    (∀ (s : BTState) (bar : Bar) (trades : List PotentialTrade),
      (s.openPositions.length : ℤ) ≤ maxOpenPositions ps →
      ((processEntries pol ps historicalData bar s trades).openPositions.length : ℤ) ≤
        maxOpenPositions ps) ∧
    (∀ (s : BTState) (bar : Bar),
      (stepClose pol lgl bar s).openPositions.length ≤ s.openPositions.length) := by
  have hmax : (0 : ℤ) ≤ maxOpenPositions ps := by
    have : (0 : ℚ) ≤ 1 / ps := le_of_lt (by positivity)
    exact Int.floor_nonneg.mpr this
  have hstep : ∀ (s : BTState) (bar : Bar),
      (s.openPositions.length : ℤ) ≤ maxOpenPositions ps →
      ((processBar pol lgl astb ps historicalData (groupSignalsByEntryBar signals) s
        bar).openPositions.length : ℤ) ≤ maxOpenPositions ps := by
    intro s bar h
    simp only [processBar]
    apply processEntries_open_le
    calc ((stepClose pol lgl bar s).openPositions.length : ℤ)
        ≤ (s.openPositions.length : ℤ) := by
          exact_mod_cast stepClose_open_le pol lgl bar s
      _ ≤ maxOpenPositions ps := h
  refine ⟨?_, fun s bar trades h => processEntries_open_le pol ps historicalData bar trades s h,
    fun s bar => stepClose_open_le pol lgl bar s⟩
  exact scanl_inv _ _ hstep historicalData (initialState ic) (by simpa [initialState] using hmax)

/-- C7 witness: on the concrete C4 run with 10% position size, every state
of the bar loop keeps at most `floor(1/(1/10)) = 10` open positions. -/
theorem claim7_position_cap_witness :
    (0 : ℚ) < 1 / 10 ∧
    ∀ s ∈ c4bars.scanl (processBar true false false (1 / 10) c4bars
        (groupSignalsByEntryBar c4sigs)) (initialState 1000),
      (s.openPositions.length : ℤ) ≤ maxOpenPositions (1 / 10) :=
  ⟨of_decide_eq_true (by with_unfolding_all rfl),
   (claim7_position_cap c4sigs c4bars 1000 true false false (1 / 10)
     (of_decide_eq_true (by with_unfolding_all rfl))).1⟩

/-- Helper: realizing an exit moves exactly the logged profit into capital,
so `capital − Σ log.profit` is unchanged. -/
theorem realizeExit_delta (pol : Bool) (d : ℕ) (p : Position) (x : ℚ) (r : String)
    (s : BTState) :
    (realizeExit pol d p x r s).currentCapital -
      ((realizeExit pol d p x r s).tradeLog.map TradeRecord.profit).sum =
    s.currentCapital - (s.tradeLog.map TradeRecord.profit).sum := by
  simp [realizeExit]

/-- Helper: a fold whose step preserves `capital − Σ log.profit` preserves
it over the whole list. -/
theorem foldl_delta (f : BTState → Position → BTState)
    (hf : ∀ acc p, (f acc p).currentCapital -
        ((f acc p).tradeLog.map TradeRecord.profit).sum =
      acc.currentCapital - (acc.tradeLog.map TradeRecord.profit).sum) :
    ∀ (l : List Position) (acc : BTState),
      (l.foldl f acc).currentCapital - ((l.foldl f acc).tradeLog.map TradeRecord.profit).sum
        = acc.currentCapital - (acc.tradeLog.map TradeRecord.profit).sum := by
  intro l
  induction l with
  | nil => intro acc; rfl
  | cons p rest ih =>
    intro acc
    simp only [List.foldl_cons]
    rw [ih (f acc p), hf acc p]

/-- Helper: the closing pass preserves `capital − Σ log.profit`. -/
theorem stepClose_delta (pol lgl : Bool) (bar : Bar) (s : BTState) :
    (stepClose pol lgl bar s).currentCapital -
      ((stepClose pol lgl bar s).tradeLog.map TradeRecord.profit).sum =
    s.currentCapital - (s.tradeLog.map TradeRecord.profit).sum := by
  simp only [stepClose]
  rw [foldl_delta]
  intro acc p
  rcases h : tradeResultFor (buildOrigins lgl bar s.openPositions) bar p with _ | r
  · simp [h]
  · simp only [h]
    exact realizeExit_delta pol bar.date p r.1 r.2 acc

/-- Helper: the entry loop preserves `capital − Σ log.profit`. -/
theorem processEntries_delta (pol : Bool) (ps : ℚ) (hist : List Bar) (bar : Bar) :
    ∀ (trades : List PotentialTrade) (s : BTState),
      (processEntries pol ps hist bar s trades).currentCapital -
        ((processEntries pol ps hist bar s trades).tradeLog.map TradeRecord.profit).sum
      = s.currentCapital - (s.tradeLog.map TradeRecord.profit).sum := by
  intro trades
  induction trades with
  | nil => intro s; rfl
  | cons sd rest ih =>
    intro s
    by_cases h1 : (s.openPositions.length : ℤ) ≥ maxOpenPositions ps
    · simp only [processEntries]
      rw [if_pos h1]
    · simp only [processEntries]
      rw [if_neg h1]
      by_cases h2 : pol = true ∧ s.isObserving = true
      · rw [if_pos h2]
        split <;> rw [ih]
      · rw [if_neg h2]
        by_cases h3 : (!optTruthy (stopLossOf sd) || !optTruthy sd.tradeSignal.projectedExit)
            = true
        · rw [if_pos h3]
          exact ih s
        · rw [if_neg h3]
          rcases h4 : sameDayCheck bar sd.isLong ((stopLossOf sd).getD 0)
              ((sd.tradeSignal.projectedExit).getD 0) with _ | r
          · simp only [h4]
            rw [ih]
          · simp only [h4]
            rw [ih]
            exact realizeExit_delta pol bar.date _ r.1 r.2 s

/-- Helper: one whole bar preserves `capital − Σ log.profit`. -/
theorem processBar_delta (pol lgl astb : Bool) (ps : ℚ) (hist : List Bar)
    (groups : List (ℕ × List PotentialTrade)) (s : BTState) (bar : Bar) :
    (processBar pol lgl astb ps hist groups s bar).currentCapital -
      ((processBar pol lgl astb ps hist groups s bar).tradeLog.map TradeRecord.profit).sum
    = s.currentCapital - (s.tradeLog.map TradeRecord.profit).sum := by
  simp only [processBar]
  rw [processEntries_delta, stepClose_delta]

/-- Helper: the bar loop preserves `capital − Σ log.profit`. -/
theorem barLoop_delta (pol lgl astb : Bool) (ps : ℚ) (hist : List Bar)
    (groups : List (ℕ × List PotentialTrade)) :
    ∀ (l : List Bar) (s : BTState),
      ((l.foldl (processBar pol lgl astb ps hist groups) s).currentCapital -
        ((l.foldl (processBar pol lgl astb ps hist groups) s).tradeLog.map
          TradeRecord.profit).sum)
      = s.currentCapital - (s.tradeLog.map TradeRecord.profit).sum := by
  intro l
  induction l with
  | nil => intro s; rfl
  | cons b bs ih =>
    intro s
    simp only [List.foldl_cons]
    rw [ih, processBar_delta]

/-- Helper: the end-of-series forced close preserves `capital − Σ log.profit`. -/
theorem closeAtEnd_delta (hist : List Bar) (s : BTState) :
    (closeAtEnd hist s).currentCapital -
      ((closeAtEnd hist s).tradeLog.map TradeRecord.profit).sum =
    s.currentCapital - (s.tradeLog.map TradeRecord.profit).sum := by
  simp only [closeAtEnd]
  rw [foldl_delta]
  intro acc p
  simp

/-- C8: over any run of `runBacktest`, the profits in the returned trade log
sum exactly to `finalCapital − initialCapital` — every capital mutation is
paired with exactly one logged record carrying the same profit, and the
final sort only permutes the log. -/
theorem claim8_profit_sum (signals : List SignalRecord) (historicalData : List Bar)
    (ic : ℚ) (pol lgl astb : Bool) (ps : ℚ) :
    ((runBacktest signals historicalData ic pol lgl astb ps).tradeLog.map
        TradeRecord.profit).sum =
      (runBacktest signals historicalData ic pol lgl astb ps).summary.finalCapital -
      (runBacktest signals historicalData ic pol lgl astb ps).summary.initialCapital := by
  simp only [runBacktest]
  have hperm : ∀ (l : List TradeRecord),
      ((l.insertionSort (fun a b =>
          a.originalSignal.entryDate.getD 0 ≤ b.originalSignal.entryDate.getD 0)).map
        TradeRecord.profit).sum = (l.map TradeRecord.profit).sum := by
    intro l
    exact ((List.perm_insertionSort _ l).map TradeRecord.profit).sum_eq
  rw [hperm]
  have hdelta := closeAtEnd_delta historicalData
    (historicalData.foldl (processBar pol lgl astb ps historicalData
      (groupSignalsByEntryBar signals)) (initialState ic))
  rw [barLoop_delta] at hdelta
  have h0 : (initialState ic).currentCapital -
      ((initialState ic).tradeLog.map TradeRecord.profit).sum = ic := by
    simp [initialState]
  rw [h0] at hdelta
  linarith [hdelta]

/-- Helper: every pivot found by the 5-bar high scan is a bar's date/high. -/
theorem scan5High_sound (bars : List Bar) :
    ∀ i, i < bars.length → ∀ ph, scan5High bars i = some ph →
    ∃ j, j < bars.length ∧ (bars.getD j default).date = ph.date ∧
      (bars.getD j default).high = ph.high := by
  intro i
  induction i using Nat.strong_induction_on with
  | _ i ih =>
    match i with
    | 0 => intro _ ph h; simp [scan5High] at h
    | 1 => intro _ ph h; simp [scan5High] at h
    | (k + 2) =>
      intro hi ph h
      rw [scan5High] at h
      split at h
      · refine ⟨k + 2, hi, ?_⟩
        have h' := Option.some.inj h
        rw [← h']
        simp [List.getD_eq_getElem _ _ hi]
      · exact ih (k + 1) (by omega) (by omega) ph h

/-- Helper: every pivot found by the 5-bar low scan is a bar's date/low. -/
theorem scan5Low_sound (bars : List Bar) :
    ∀ i, i < bars.length → ∀ pl, scan5Low bars i = some pl →
    ∃ j, j < bars.length ∧ (bars.getD j default).date = pl.date ∧
      (bars.getD j default).low = pl.low := by
  intro i
  induction i using Nat.strong_induction_on with
  | _ i ih =>
    match i with
    | 0 => intro _ pl h; simp [scan5Low] at h
    | 1 => intro _ pl h; simp [scan5Low] at h
    | (k + 2) =>
      intro hi pl h
      rw [scan5Low] at h
      split at h
      · refine ⟨k + 2, hi, ?_⟩
        have h' := Option.some.inj h
        rw [← h']
        simp [List.getD_eq_getElem _ _ hi]
      · exact ih (k + 1) (by omega) (by omega) pl h

/-- Helper: every pivot found by the 3-bar high scan is a bar's date/high. -/
theorem scan3High_sound (bars : List Bar) :
    ∀ i, i < bars.length → ∀ ph, scan3High bars i = some ph →
    ∃ j, j < bars.length ∧ (bars.getD j default).date = ph.date ∧
      (bars.getD j default).high = ph.high := by
  intro i
  induction i with
  | zero => intro _ ph h; simp [scan3High] at h
  | succ k ih =>
    intro hi ph h
    rw [scan3High] at h
    split at h
    · refine ⟨k + 1, hi, ?_⟩
      have h' := Option.some.inj h
      rw [← h']
      simp [List.getD_eq_getElem _ _ hi]
    · exact ih (by omega) ph h

/-- Helper: every pivot found by the 3-bar low scan is a bar's date/low. -/
theorem scan3Low_sound (bars : List Bar) :
    ∀ i, i < bars.length → ∀ pl, scan3Low bars i = some pl →
    ∃ j, j < bars.length ∧ (bars.getD j default).date = pl.date ∧
      (bars.getD j default).low = pl.low := by
  intro i
  induction i with
  | zero => intro _ pl h; simp [scan3Low] at h
  | succ k ih =>
    intro hi pl h
    rw [scan3Low] at h
    split at h
    · refine ⟨k + 1, hi, ?_⟩
      have h' := Option.some.inj h
      rw [← h']
      simp [List.getD_eq_getElem _ _ hi]
    · exact ih (by omega) pl h

/-- Helper: the initial high pivot, when present, carries some bar's date
and high. -/
theorem initialPivotHighOf_sound (bars : List Bar) (ph : PivotHigh)
    (h : initialPivotHighOf bars = some ph) :
    ∃ j, j < bars.length ∧ (bars.getD j default).date = ph.date ∧
      (bars.getD j default).high = ph.high := by
  by_cases hnil : bars = []
  · subst hnil
    simp [initialPivotHighOf, scan5High, scan3High] at h
  · have hpos : 0 < bars.length := List.length_pos.mpr hnil
    unfold initialPivotHighOf at h
    by_cases h5len : 5 ≤ bars.length
    · rw [if_pos h5len] at h
      rcases h5 : scan5High bars (bars.length - 3) with _ | ph5
      · rw [h5] at h
        simp only [Option.isNone_none, if_pos, Option.none_orElse] at h
        exact scan3High_sound bars (bars.length - 2) (by omega) ph h
      · rw [h5] at h
        simp only [Option.some_orElse] at h
        rw [← Option.some.inj h]
        exact scan5High_sound bars (bars.length - 3) (by omega) ph5 h5
    · rw [if_neg h5len] at h
      simp only [Option.isNone_none, if_pos, Option.none_orElse] at h
      exact scan3High_sound bars (bars.length - 2) (by omega) ph h

/-- Helper: the initial low pivot, when present, carries some bar's date
and low. -/
theorem initialPivotLowOf_sound (bars : List Bar) (pl : PivotLow)
    (h : initialPivotLowOf bars = some pl) :
    ∃ j, j < bars.length ∧ (bars.getD j default).date = pl.date ∧
      (bars.getD j default).low = pl.low := by
  by_cases hnil : bars = []
  · subst hnil
    simp [initialPivotLowOf, scan5Low, scan3Low] at h
  · have hpos : 0 < bars.length := List.length_pos.mpr hnil
    unfold initialPivotLowOf at h
    by_cases h5len : 5 ≤ bars.length
    · rw [if_pos h5len] at h
      rcases h5 : scan5Low bars (bars.length - 3) with _ | pl5
      · rw [h5] at h
        simp only [Option.isNone_none, if_pos, Option.none_orElse] at h
        exact scan3Low_sound bars (bars.length - 2) (by omega) pl h
      · rw [h5] at h
        simp only [Option.some_orElse] at h
        rw [← Option.some.inj h]
        exact scan5Low_sound bars (bars.length - 3) (by omega) pl5 h5
    · rw [if_neg h5len] at h
      simp only [Option.isNone_none, if_pos, Option.none_orElse] at h
      exact scan3Low_sound bars (bars.length - 2) (by omega) pl h

/-- Helper: the high-correction fold tracks the running maximum: it returns
a bound for every window bar, its price is its bar's high, the price never
decreases, and the bar is the start accumulator or a window bar. -/
theorem hiFold_spec :
    ∀ (l : List Bar) (acc : ℚ × Bar), acc.1 = acc.2.high →
      (hiFold l acc).1 = (hiFold l acc).2.high ∧ acc.1 ≤ (hiFold l acc).1 ∧
      ((hiFold l acc).2 = acc.2 ∨ (hiFold l acc).2 ∈ l) ∧
      ∀ b ∈ l, b.high ≤ (hiFold l acc).1 := by
  intro l
  induction l with
  | nil =>
    intro acc h
    refine ⟨h, le_refl _, Or.inl rfl, ?_⟩
    intro b hb
    simp at hb
  | cons b rest ih =>
    intro acc hacc
    have hstep : ∀ a : ℚ × Bar, hiFold (b :: rest) a =
        hiFold rest (if b.high > a.1 then (b.high, b) else a) := fun a => rfl
    by_cases hb : b.high > acc.1
    · rw [hstep, if_pos hb]
      obtain ⟨h1, h2, h3, h4⟩ := ih (b.high, b) rfl
      refine ⟨h1, le_trans (le_of_lt hb) h2, ?_, ?_⟩
      · rcases h3 with h3 | h3
        · right
          rw [h3]
          exact List.mem_cons_self b rest
        · right
          exact List.mem_cons_of_mem _ h3
      · intro c hc
        rcases List.mem_cons.mp hc with rfl | hc
        · exact h2
        · exact h4 c hc
    · rw [hstep, if_neg hb]
      obtain ⟨h1, h2, h3, h4⟩ := ih acc hacc
      refine ⟨h1, h2, ?_, ?_⟩
      · rcases h3 with h3 | h3
        · exact Or.inl h3
        · exact Or.inr (List.mem_cons_of_mem _ h3)
      · intro c hc
        rcases List.mem_cons.mp hc with rfl | hc
        · exact le_trans (not_lt.mp hb) h2
        · exact h4 c hc

/-- Helper: the low-correction fold tracks the running minimum. -/
theorem loFold_spec :
    ∀ (l : List Bar) (acc : ℚ × Bar), acc.1 = acc.2.low →
      (loFold l acc).1 = (loFold l acc).2.low ∧ (loFold l acc).1 ≤ acc.1 ∧
      ((loFold l acc).2 = acc.2 ∨ (loFold l acc).2 ∈ l) ∧
      ∀ b ∈ l, (loFold l acc).1 ≤ b.low := by
  intro l
  induction l with
  | nil =>
    intro acc h
    refine ⟨h, le_refl _, Or.inl rfl, ?_⟩
    intro b hb
    simp at hb
  | cons b rest ih =>
    intro acc hacc
    have hstep : ∀ a : ℚ × Bar, loFold (b :: rest) a =
        loFold rest (if b.low < a.1 then (b.low, b) else a) := fun a => rfl
    by_cases hb : b.low < acc.1
    · rw [hstep, if_pos hb]
      obtain ⟨h1, h2, h3, h4⟩ := ih (b.low, b) rfl
      refine ⟨h1, le_trans h2 (le_of_lt hb), ?_, ?_⟩
      · rcases h3 with h3 | h3
        · right
          rw [h3]
          exact List.mem_cons_self b rest
        · right
          exact List.mem_cons_of_mem _ h3
      · intro c hc
        rcases List.mem_cons.mp hc with rfl | hc
        · exact h2
        · exact h4 c hc
    · rw [hstep, if_neg hb]
      obtain ⟨h1, h2, h3, h4⟩ := ih acc hacc
      refine ⟨h1, h2, ?_, ?_⟩
      · rcases h3 with h3 | h3
        · exact Or.inl h3
        · exact Or.inr (List.mem_cons_of_mem _ h3)
      · intro c hc
        rcases List.mem_cons.mp hc with rfl | hc
        · exact le_trans h2 (not_lt.mp hb)
        · exact h4 c hc

/-- Helper: with pairwise-distinct dates, `findIndex` on a bar's date finds
exactly that bar's position. -/
theorem findIdx?_date (bars : List Bar) (j : ℕ)
    (hnd : (bars.map Bar.date).Nodup) (hj : j < bars.length) :
    bars.findIdx? (fun d => d.date == (bars.getD j default).date) = some j := by
  rw [List.getD_eq_getElem _ _ hj, List.findIdx?_eq_some_iff_getElem]
  refine ⟨hj, by simp, ?_⟩
  intro i hij
  have hi : i < bars.length := lt_trans hij hj
  have hmap := List.pairwise_iff_getElem.mp hnd i j (by simpa using hi)
    (by simpa using hj) hij
  simp only [List.getElem_map] at hmap
  simpa using hmap

/-- Helper: the corrected high pivot dominates every bar's high from the
initial pivot bar to the end of the window and is attained, date and price,
by a bar of that sub-range. -/
theorem correctHigh_spec (bars : List Bar) (ph : PivotHigh) (j : ℕ)
    (hnd : (bars.map Bar.date).Nodup) (hj : j < bars.length)
    (hd : (bars.getD j default).date = ph.date)
    (hh : (bars.getD j default).high = ph.high) :
    (∀ b ∈ bars.drop j, b.high ≤ (correctHigh bars ph).high) ∧
    (∃ b ∈ bars.drop j, b.date = (correctHigh bars ph).date ∧
      b.high = (correctHigh bars ph).high) := by
  have hidx : bars.findIdx? (fun d => d.date == ph.date) = some j := by
    rw [← hd]
    exact findIdx?_date bars j hnd hj
  have hdropmem : bars.getD j default ∈ bars.drop j := by
    rw [List.getD_eq_getElem _ _ hj, List.drop_eq_getElem_cons hj]
    exact List.mem_cons_self _ _
  obtain ⟨h1, h2, h3, h4⟩ := hiFold_spec (bars.drop j)
    (ph.high, bars.getD j default) (by simpa using hh.symm)
  simp only [correctHigh, hidx]
  constructor
  · intro b hb
    exact h4 b hb
  · refine ⟨(hiFold (bars.drop j) (ph.high, bars.getD j default)).2, ?_, rfl, h1.symm⟩
    rcases h3 with h3 | h3
    · rw [h3]
      exact hdropmem
    · exact h3

/-- Helper: the corrected low pivot is below every bar's low from the
initial pivot bar to the end of the window and is attained by a bar of that
sub-range. -/
theorem correctLow_spec (bars : List Bar) (pl : PivotLow) (j : ℕ)
    (hnd : (bars.map Bar.date).Nodup) (hj : j < bars.length)
    (hd : (bars.getD j default).date = pl.date)
    (hl : (bars.getD j default).low = pl.low) :
    (∀ b ∈ bars.drop j, (correctLow bars pl).low ≤ b.low) ∧
    (∃ b ∈ bars.drop j, b.date = (correctLow bars pl).date ∧
      b.low = (correctLow bars pl).low) := by
  have hidx : bars.findIdx? (fun d => d.date == pl.date) = some j := by
    rw [← hd]
    exact findIdx?_date bars j hnd hj
  have hdropmem : bars.getD j default ∈ bars.drop j := by
    rw [List.getD_eq_getElem _ _ hj, List.drop_eq_getElem_cons hj]
    exact List.mem_cons_self _ _
  obtain ⟨h1, h2, h3, h4⟩ := loFold_spec (bars.drop j)
    (pl.low, bars.getD j default) (by simpa using hl.symm)
  simp only [correctLow, hidx]
  constructor
  · intro b hb
    exact h4 b hb
  · refine ⟨(loFold (bars.drop j) (pl.low, bars.getD j default)).2, ?_, rfl, h1.symm⟩
    rcases h3 with h3 | h3
    · rw [h3]
      exact hdropmem
    · exact h3

/-- C9: on any window of at least 3 bars with distinct dates, whenever
`findInitialPivots` returns a high (resp. low) pivot, that pivot is the
correction of the initially located fractal: its price bounds every bar's
high (resp. low) from the initial fractal bar to the end of the window, and
both its price and its date are attained by a bar of that sub-range — so
the price equals the sub-range's true extreme. -/
theorem claim9_pivot_correction (bars : List Bar)
    (hnd : (bars.map Bar.date).Nodup) (hlen : 3 ≤ bars.length) :
    (∀ ph, initialPivotHighOf bars = some ph →
      (findInitialPivots bars).1 = some (correctHigh bars ph) ∧
      ∃ j, j < bars.length ∧ (bars.getD j default).date = ph.date ∧
        (bars.getD j default).high = ph.high ∧
        (∀ b ∈ bars.drop j, b.high ≤ (correctHigh bars ph).high) ∧
        ∃ b ∈ bars.drop j, b.date = (correctHigh bars ph).date ∧
          b.high = (correctHigh bars ph).high) ∧
    (∀ pl, initialPivotLowOf bars = some pl →
      (findInitialPivots bars).2 = some (correctLow bars pl) ∧
      ∃ j, j < bars.length ∧ (bars.getD j default).date = pl.date ∧
        (bars.getD j default).low = pl.low ∧
        (∀ b ∈ bars.drop j, (correctLow bars pl).low ≤ b.low) ∧
        ∃ b ∈ bars.drop j, b.date = (correctLow bars pl).date ∧
          b.low = (correctLow bars pl).low) := by
  constructor
  · intro ph hph
    have hfip : (findInitialPivots bars).1 = some (correctHigh bars ph) := by
      simp only [findInitialPivots]
      rw [if_neg (by omega)]
      simp [hph]
    obtain ⟨j, hj, hd, hh⟩ := initialPivotHighOf_sound bars ph hph
    obtain ⟨hbound, hatt⟩ := correctHigh_spec bars ph j hnd hj hd hh
    exact ⟨hfip, j, hj, hd, hh, hbound, hatt⟩
  · intro pl hpl
    have hfip : (findInitialPivots bars).2 = some (correctLow bars pl) := by
      simp only [findInitialPivots]
      rw [if_neg (by omega)]
      simp [hpl]
    obtain ⟨j, hj, hd, hl⟩ := initialPivotLowOf_sound bars pl hpl
    obtain ⟨hbound, hatt⟩ := correctLow_spec bars pl j hnd hj hd hl
    exact ⟨hfip, j, hj, hd, hl, hbound, hatt⟩

/-- A 3-bar window with a high fractal (high 3) and a low fractal (low 2)
in the middle. -/
def c9bars : List Bar :=
  [{ date := 0, open_ := 1, high := 1, low := 5, close := 1, volume := 0 },
   { date := 1, open_ := 2, high := 3, low := 2, close := 2, volume := 0 },
   { date := 2, open_ := 2, high := 2, low := 4, close := 2, volume := 0 }]

/-- C9 witness: on `c9bars` the initial pivots resolve to the middle bar and
`findInitialPivots` returns their corrections. -/
theorem claim9_pivot_correction_witness :
    (c9bars.map Bar.date).Nodup ∧ 3 ≤ c9bars.length ∧
    initialPivotHighOf c9bars = some { date := 1, high := 3 } ∧
    (findInitialPivots c9bars).1 =
      some (correctHigh c9bars { date := 1, high := 3 }) ∧
    initialPivotLowOf c9bars = some { date := 1, low := 2 } ∧
    (findInitialPivots c9bars).2 =
      some (correctLow c9bars { date := 1, low := 2 }) := by
  have hnd : (c9bars.map Bar.date).Nodup := by decide
  have hph : initialPivotHighOf c9bars = some { date := 1, high := 3 } :=
    of_decide_eq_true (by with_unfolding_all rfl)
  have hpl : initialPivotLowOf c9bars = some { date := 1, low := 2 } :=
    of_decide_eq_true (by with_unfolding_all rfl)
  have h := claim9_pivot_correction c9bars hnd (by decide)
  exact ⟨hnd, by decide, hph, (h.1 _ hph).1, hpl, (h.2 _ hpl).1⟩

end TradeSignal
